import Mathlib

/-!
Verification of the skyscraper-backend extraction pipeline.

This file gives a shallow embedding of the two source files of the
repository (`src/main.py` and `src/api/index.py`) and proves or refutes
the specification claims about them.

Conventions of the embedding:
* Python strings are modelled as `List Char` (wrapped in `String` at the
  interfaces); all string primitives (`split`, `strip`, `lower`,
  substring containment) are re-implemented structurally so that every
  definition evaluates inside the kernel.
* Python `dict`s appearing in extraction results are modelled by the
  mutual inductive `JVal`/`JArr`/`JObj` below, which is the JSON value
  universe the pipeline actually traffics in.  Python floats are limited
  to the decimal constructor `JVal.dec`, which models an IEEE double by
  its shortest decimal representation; the well-formedness predicate
  restricts decimals to the canonical window in which that modelling is
  exact.
* HTTP fetches, the Playwright page and the Gemini service are the
  pipeline's only effects; they are passed in as explicit outcome values.
-/

/-! ## Character and list utilities (Python string primitives) -/

/-- Whitespace characters recognised by `json.loads` and `str.strip`. -/
def isWsChar (c : Char) : Bool :=
  c = ' ' || c = '\t' || c = '\n' || c = '\r'

/-- `n` spaces, the indentation unit of `json.dumps(indent=2)`. -/
def sp (n : Nat) : List Char := List.replicate n ' '

/-- Drop leading whitespace. -/
def skipWs : List Char → List Char
  | [] => []
  | c :: cs => if isWsChar c then skipWs cs else c :: cs

/-- Python `str.strip` from the left. -/
def dropLeadWs : List Char → List Char := skipWs

/-- Python `str.strip`: whitespace removed from both ends. -/
def trimChars (l : List Char) : List Char :=
  ((skipWs l.reverse).reverse |> skipWs)

/-- Python `str.strip` on `String`s, used for `.trim()` in the page script. -/
def pyStrip (s : String) : String := String.mk (trimChars s.data)

/-- ASCII lowering of one character, as Python `str.lower` does on ASCII. -/
def lowerChar (c : Char) : Char :=
  if 65 ≤ c.toNat && c.toNat ≤ 90 then Char.ofNat (c.toNat + 32) else c

/-- Python `str.lower` (ASCII fragment, which is all the source compares). -/
def lowerChars (l : List Char) : List Char := l.map lowerChar

/-- Does `l` start with `p`? -/
def startsWithSub (p l : List Char) : Bool :=
  match p, l with
  | [], _ => true
  | ph :: pt, lh :: lt => ph = lh && startsWithSub pt lt
  | _ :: _, [] => false

/-- Python `sub in s` substring containment. -/
def containsSub (l : List Char) (p : List Char) : Bool :=
  match l with
  | [] => startsWithSub p []
  | _ :: cs => startsWithSub p l || containsSub cs p

/-- Substring containment on `String`s, Python's `in` operator. -/
def pyIn (needle s : String) : Bool := containsSub s.data needle.data

/-- One step of Python `str.split(sep)`: the piece before the first
occurrence of `sep` and the remainder after it, if `sep` occurs. -/
def splitOnceAux (sep : List Char) : List Char → Option (List Char × List Char)
  | [] => if startsWithSub sep [] then some ([], []) else none
  | c :: cs =>
    if startsWithSub sep (c :: cs) then some ([], (c :: cs).drop sep.length)
    else match splitOnceAux sep cs with
      | some (a, b) => some (c :: a, b)
      | none => none

/-- Python `s.split(sep)` for nonempty `sep`, with fuel for termination. -/
def splitSepAux (sep : List Char) : Nat → List Char → List (List Char)
  | 0, l => [l]
  | fuel + 1, l =>
    match splitOnceAux sep l with
    | some (a, b) => a :: splitSepAux sep fuel b
    | none => [l]

/-- Python `s.split(sep)` (all occurrences, left to right). -/
def pySplit (s sep : String) : List String :=
  (splitSepAux sep.data (s.data.length + 1) s.data).map String.mk

/-! ## Decimal digits (Python `str` of integers) -/

/-- Big-endian decimal digits of a natural number, with structural fuel. -/
def natCharsAux : Nat → Nat → List Char
  | 0, _ => []
  | fuel + 1, n =>
    if n < 10 then [Nat.digitChar n]
    else natCharsAux fuel (n / 10) ++ [Nat.digitChar (n % 10)]

/-- Python `str(n)` for a natural number. -/
def natChars (n : Nat) : List Char := natCharsAux (n + 1) n

/-- Python `str(i)` for an integer. -/
def intChars : Int → List Char
  | .ofNat n => natChars n
  | .negSucc n => '-' :: natChars (n + 1)

/-! ## The JSON value universe of the pipeline -/

mutual
/-- A Python value as it appears in extraction results: the JSON universe,
with floats represented by their shortest decimal form (`dec`). -/
inductive JVal where
  | null : JVal
  | bool : Bool → JVal
  | num : Int → JVal
  | dec : Bool → Nat → List Nat → JVal
  | str : String → JVal
  | arr : JArr → JVal
  | obj : JObj → JVal
/-- A Python list of `JVal`s. -/
inductive JArr where
  | nil : JArr
  | cons : JVal → JArr → JArr
/-- A Python dict with string keys, in insertion order. -/
inductive JObj where
  | onil : JObj
  | ocons : String → JVal → JObj → JObj
end

mutual
/-- Nesting size of a value: a lower bound on its rendered length. -/
def jsizeV : JVal → Nat
  | .null | .bool _ | .num _ | .dec _ _ _ | .str _ => 1
  | .arr xs => 1 + jsizeA xs
  | .obj fs => 1 + jsizeO fs
/-- Nesting size of an array's elements. -/
def jsizeA : JArr → Nat
  | .nil => 0
  | .cons v tl => 1 + jsizeV v + jsizeA tl
/-- Nesting size of an object's fields. -/
def jsizeO : JObj → Nat
  | .onil => 0
  | .ocons _ v tl => 1 + jsizeV v + jsizeO tl
end

/-- Is `k` a key of the object? -/
def keyMem (k : String) : JObj → Bool
  | .onil => false
  | .ocons k' _ tl => k = k' || keyMem k tl

/-- Look up a key (first occurrence), as Python `d[k]` / `d.get(k)`. -/
def objGet (k : String) : JObj → Option JVal
  | .onil => none
  | .ocons k' v tl => if k = k' then some v else objGet k tl

/-- All keys pairwise distinct. -/
def distinctKeys : JObj → Bool
  | .onil => true
  | .ocons k _ tl => !keyMem k tl && distinctKeys tl

/-- Python `d[k] = v`: replace in place at the first occurrence, else append. -/
def objSet : JObj → String → JVal → JObj
  | .onil, k, v => .ocons k v .onil
  | .ocons k' v' tl, k, v =>
    if k' = k then .ocons k' v tl else .ocons k' v' (objSet tl k v)

/-- Building a dict from parsed key/value pairs in order (later duplicate
keys overwrite, as `json.loads` does). -/
def dedupAux : JObj → JObj → JObj
  | acc, .onil => acc
  | acc, .ocons k v tl => dedupAux (objSet acc k v) tl

/-- The dict obtained by inserting the pairs of `fs` left to right. -/
def dedup (fs : JObj) : JObj := dedupAux .onil fs

/-- Concatenation of two objects' field lists. -/
def objAppend : JObj → JObj → JObj
  | .onil, g => g
  | .ocons k v tl, g => .ocons k v (objAppend tl g)

/-- Canonical-decimal window: nonempty fractional digits, all below ten,
no trailing zero, at most fifteen significant digits, and magnitude at
least `1e-4` — exactly the decimals whose round trip through an IEEE
double and Python `repr` is the identity on the digit string. -/
def decCanon (i : Nat) (frac : List Nat) : Bool :=
  !frac.isEmpty && frac.all (fun d => d < 10) && frac.getLastD 0 != 0
    && decide ((natChars i).length + frac.length ≤ 15)
    && (i != 0 || (frac.take 4).any (fun d => d != 0))

mutual
/-- Well-formed value: every object has distinct keys and every decimal is
in the canonical window.  This is the domain on which the `JVal` model is
an exact image of the Python values. -/
def wfV : JVal → Bool
  | .null | .bool _ | .num _ | .str _ => true
  | .dec _ i frac => decCanon i frac
  | .arr xs => wfA xs
  | .obj fs => distinctKeys fs && wfO fs
/-- Well-formedness of each array element. -/
def wfA : JArr → Bool
  | .nil => true
  | .cons v tl => wfV v && wfA tl
/-- Well-formedness of each field value. -/
def wfO : JObj → Bool
  | .onil => true
  | .ocons _ v tl => wfV v && wfO tl
end

/-! ## `json.dumps(data, indent=2, ensure_ascii=False)` — the renderer
behind `DataExporter.to_json` (src/main.py lines 283-286). -/

/-- Hexadecimal digit character, lowercase, as Python emits in `\u` escapes. -/
def hexChar (d : Nat) : Char :=
  if d < 10 then Char.ofNat (48 + d) else Char.ofNat (87 + d)

/-- JSON string escaping of one character (`ensure_ascii=False`). -/
def encChar (c : Char) : List Char :=
  if c = '"' then ['\\', '"']
  else if c = '\\' then ['\\', '\\']
  else if c = '\n' then ['\\', 'n']
  else if c = '\t' then ['\\', 't']
  else if c = '\r' then ['\\', 'r']
  else if c.toNat = 8 then ['\\', 'b']
  else if c.toNat = 12 then ['\\', 'f']
  else if c.toNat < 32 then
    ['\\', 'u', '0', '0', hexChar (c.toNat / 16), hexChar (c.toNat % 16)]
  else [c]

/-- JSON string escaping of a character list. -/
def encStr : List Char → List Char
  | [] => []
  | c :: cs => encChar c ++ encStr cs

/-- Rendering of the decimal (float) constructor: Python `repr` of the
double, which on the canonical window is the digit string itself. -/
def decChars (neg : Bool) (i : Nat) (frac : List Nat) : List Char :=
  (if neg then ['-'] else []) ++ natChars i ++ '.' :: frac.map Nat.digitChar

mutual
/-- `json.dumps(v, indent=2, ensure_ascii=False)` at indentation level
`ind`, over `List Char`. -/
def renderV : Nat → JVal → List Char
  | _, .null => ['n', 'u', 'l', 'l']
  | _, .bool true => ['t', 'r', 'u', 'e']
  | _, .bool false => ['f', 'a', 'l', 's', 'e']
  | _, .num i => intChars i
  | _, .dec neg i frac => decChars neg i frac
  | _, .str s => '"' :: (encStr s.data ++ ['"'])
  | _, .arr .nil => ['[', ']']
  | ind, .arr (.cons v tl) =>
    '[' :: '\n' :: (renderItems (ind + 1) (.cons v tl) ++ '\n' :: (sp (2 * ind) ++ [']']))
  | _, .obj .onil => ['{', '}']
  | ind, .obj (.ocons k v tl) =>
    '{' :: '\n' :: (renderFields (ind + 1) (.ocons k v tl) ++ '\n' :: (sp (2 * ind) ++ ['}']))
/-- The comma-and-newline separated items of a nonempty array. -/
def renderItems : Nat → JArr → List Char
  | _, .nil => []
  | ind, .cons v .nil => sp (2 * ind) ++ renderV ind v
  | ind, .cons v (.cons w tl) =>
    sp (2 * ind) ++ (renderV ind v ++ ',' :: '\n' :: renderItems ind (.cons w tl))
/-- The comma-and-newline separated `"key": value` fields of a nonempty
object. -/
def renderFields : Nat → JObj → List Char
  | _, .onil => []
  | ind, .ocons k v .onil =>
    sp (2 * ind) ++ '"' :: (encStr k.data ++ '"' :: ':' :: ' ' :: renderV ind v)
  | ind, .ocons k v (.ocons k' w tl) =>
    sp (2 * ind) ++ '"' :: (encStr k.data ++ '"' :: ':' :: ' ' ::
      (renderV ind v ++ ',' :: '\n' :: renderFields ind (.ocons k' w tl)))
end

namespace DataExporter

/-- `DataExporter.to_json` (src/main.py lines 283-286):
`json.dumps(data, indent=2, ensure_ascii=False)`. -/
def to_json (data : JVal) : String := String.mk (renderV 0 data)

end DataExporter

/-! ## `json.loads` — recursive-descent model of the standard parser -/

/-- Is `c` a decimal digit? -/
def isDigitChar (c : Char) : Bool := 48 ≤ c.toNat && c.toNat ≤ 57

/-- Value of a hexadecimal digit character, if any. -/
def hexVal (c : Char) : Option Nat :=
  if 48 ≤ c.toNat && c.toNat ≤ 57 then some (c.toNat - 48)
  else if 97 ≤ c.toNat && c.toNat ≤ 102 then some (c.toNat - 87)
  else if 65 ≤ c.toNat && c.toNat ≤ 70 then some (c.toNat - 55)
  else none

/-- Decoding of a two-character escape. -/
def escChar (e : Char) : Option Char :=
  if e = 'n' then some '\n'
  else if e = 't' then some '\t'
  else if e = 'r' then some '\r'
  else if e = 'b' then some (Char.ofNat 8)
  else if e = 'f' then some (Char.ofNat 12)
  else if e = '"' || e = '\\' || e = '/' then some e
  else none

/-- Parse a JSON string body up to the closing quote. -/
def parseStrBody : List Char → Option (List Char × List Char)
  | [] => none
  | c :: rest =>
    if c = '"' then some ([], rest)
    else if c = '\\' then
      match rest with
      | 'u' :: h1 :: h2 :: h3 :: h4 :: rest2 =>
        (match hexVal h1, hexVal h2, hexVal h3, hexVal h4 with
         | some a, some b, some x, some d =>
           (parseStrBody rest2).map
             (fun p => (Char.ofNat (((a * 16 + b) * 16 + x) * 16 + d) :: p.1, p.2))
         | _, _, _, _ => none)
      | e :: rest2 =>
        (match escChar e with
         | some d => (parseStrBody rest2).map (fun p => (d :: p.1, p.2))
         | none => none)
      | [] => none
    else (parseStrBody rest).map (fun p => (c :: p.1, p.2))

/-- Longest digit prefix and the remainder. -/
def takeDigits : List Char → List Char × List Char
  | [] => ([], [])
  | c :: cs =>
    if isDigitChar c then
      match takeDigits cs with
      | (a, b) => (c :: a, b)
    else ([], c :: cs)

/-- Numeric value of a digit string. -/
def digitsVal (ds : List Char) : Nat :=
  ds.foldl (fun a c => 10 * a + (c.toNat - 48)) 0

/-- Parse an unsigned JSON number (integer or decimal). -/
def parseUnsigned (cs : List Char) : Option (JVal × List Char) :=
  match takeDigits cs with
  | ([], _) => none
  | (d :: ds, r) =>
    match r with
    | c :: r2 =>
      if c = '.' then
        match takeDigits r2 with
        | ([], _) => none
        | (f :: fs, r3) =>
          some (.dec false (digitsVal (d :: ds)) ((f :: fs).map (fun x => x.toNat - 48)), r3)
      else some (.num (Int.ofNat (digitsVal (d :: ds))), c :: r2)
    | [] => some (.num (Int.ofNat (digitsVal (d :: ds))), [])

/-- Negate a parsed unsigned number. -/
def negNum : JVal → JVal
  | .num n => .num (-n)
  | .dec _ i f => .dec true i f
  | v => v

/-- Parse a JSON number with optional sign. -/
def parseNum : List Char → Option (JVal × List Char)
  | [] => none
  | c :: cs =>
    if c = '-' then (parseUnsigned cs).map (fun p => (negNum p.1, p.2))
    else parseUnsigned (c :: cs)

/-- One dispatch step of the value parser, over the head character; the
array and object continuations are passed in. -/
def parseValCore (pItems : List Char → Option (JArr × List Char))
    (pFields : List Char → Option (JObj × List Char))
    (c : Char) (r : List Char) : Option (JVal × List Char) :=
  if c = 'n' then
    match r with
    | 'u' :: 'l' :: 'l' :: r2 => some (.null, r2)
    | _ => none
  else if c = 't' then
    match r with
    | 'r' :: 'u' :: 'e' :: r2 => some (.bool true, r2)
    | _ => none
  else if c = 'f' then
    match r with
    | 'a' :: 'l' :: 's' :: 'e' :: r2 => some (.bool false, r2)
    | _ => none
  else if c = '"' then
    (parseStrBody r).map (fun p => (.str (String.mk p.1), p.2))
  else if c = '[' then
    match skipWs r with
    | [] => none
    | c2 :: r1 =>
      if c2 = ']' then some (.arr .nil, r1)
      else (pItems (c2 :: r1)).map (fun p => (.arr p.1, p.2))
  else if c = '{' then
    match skipWs r with
    | [] => none
    | c2 :: r1 =>
      if c2 = '}' then some (.obj .onil, r1)
      else (pFields (c2 :: r1)).map (fun p => (.obj (dedup p.1), p.2))
  else parseNum (c :: r)

/-- After an array item: a comma continues the item list, `]` closes it. -/
def parseItemsStep (pA : List Char → Option (JArr × List Char))
    (v : JVal) (r : List Char) : Option (JArr × List Char) :=
  match skipWs r with
  | [] => none
  | c :: r2 =>
    if c = ',' then (pA r2).map (fun p => (.cons v p.1, p.2))
    else if c = ']' then some (.cons v .nil, r2)
    else none

/-- After an object field: a comma continues the field list, `}` closes it. -/
def parseFieldsStep (pO : List Char → Option (JObj × List Char))
    (k : List Char) (v : JVal) (r : List Char) : Option (JObj × List Char) :=
  match skipWs r with
  | [] => none
  | c :: r2 =>
    if c = ',' then (pO r2).map (fun p => (.ocons (String.mk k) v p.1, p.2))
    else if c = '}' then some (.ocons (String.mk k) v .onil, r2)
    else none

mutual
/-- Parse one JSON value (fuelled; `json.loads` grammar without
exponent-form numbers, which the renderer never emits). -/
def parseVal : Nat → List Char → Option (JVal × List Char)
  | 0, _ => none
  | f + 1, cs =>
    match cs with
    | [] => none
    | c :: r => parseValCore (parseItems f) (parseFields f) c r
/-- Parse the comma-separated items of a nonempty array, through `]`. -/
def parseItems : Nat → List Char → Option (JArr × List Char)
  | 0, _ => none
  | f + 1, cs =>
    match parseVal f (skipWs cs) with
    | none => none
    | some (v, r) => parseItemsStep (parseItems f) v r
/-- Parse the comma-separated fields of a nonempty object, through `}`. -/
def parseFields : Nat → List Char → Option (JObj × List Char)
  | 0, _ => none
  | f + 1, cs =>
    match skipWs cs with
    | [] => none
    | c :: r =>
      if c = '"' then
        match parseStrBody r with
        | none => none
        | some (k, r1) =>
          match skipWs r1 with
          | [] => none
          | c2 :: r2 =>
            if c2 = ':' then
              match parseVal f (skipWs r2) with
              | none => none
              | some (v, r3) => parseFieldsStep (parseFields f) k v r3
            else none
      else none
end

/-- `json.loads`: parse a complete document, allowing only surrounding
whitespace. -/
def loads (s : String) : Option JVal :=
  match parseVal (s.data.length + 1) (skipWs s.data) with
  | some (v, r) =>
    (match skipWs r with
     | [] => some v
     | _ => none)
  | none => none

/-! ## Basic lemmas about the string primitives -/

/-- Characters with the same code point are equal. -/
theorem char_toNat_injective {c d : Char} (h : c.toNat = d.toNat) : c = d := by
  rw [← Char.ofNat_toNat c, ← Char.ofNat_toNat d, h]

/-- A digit character is not whitespace. -/
theorem isWs_of_digit {c : Char} (h : isDigitChar c = true) : isWsChar c = false := by
  simp only [isDigitChar, Bool.and_eq_true, decide_eq_true_eq] at h
  simp only [isWsChar, Bool.or_eq_false_iff, decide_eq_false_iff_not]
  refine ⟨⟨⟨?_, ?_⟩, ?_⟩, ?_⟩ <;>
    (intro hc; subst hc; exact absurd h (by decide))

/-- A digit character is not one of the structural characters. -/
theorem digit_ne_special {c : Char} (h : isDigitChar c = true) :
    c ≠ ']' ∧ c ≠ '}' ∧ c ≠ ',' ∧ c ≠ '.' ∧ c ≠ '-' := by
  simp only [isDigitChar, Bool.and_eq_true, decide_eq_true_eq] at h
  refine ⟨?_, ?_, ?_, ?_, ?_⟩ <;> (intro hc; subst hc; exact absurd h (by decide))

theorem skipWs_cons_of_ws {c : Char} (h : isWsChar c = true) (l : List Char) :
    skipWs (c :: l) = skipWs l := by
  simp [skipWs, h]

theorem skipWs_cons_of_not_ws {c : Char} (h : isWsChar c = false) (l : List Char) :
    skipWs (c :: l) = c :: l := by
  simp [skipWs, h]

theorem skipWs_sp_append (n : Nat) (l : List Char) : skipWs (sp n ++ l) = skipWs l := by
  induction n with
  | zero => rfl
  | succ m ih =>
    simpa [sp, List.replicate_succ, skipWs] using ih

/-- All characters whitespace. -/
def allWs (l : List Char) : Bool := l.all isWsChar

theorem skipWs_allWs_append {ws : List Char} (h : allWs ws = true) (l : List Char) :
    skipWs (ws ++ l) = skipWs l := by
  induction ws with
  | nil => rfl
  | cons c cs ih =>
    simp only [allWs, List.all_cons, Bool.and_eq_true] at h
    simpa [skipWs_cons_of_ws h.1] using ih (by simpa [allWs] using h.2)

theorem skipWs_idem (l : List Char) : skipWs (skipWs l) = skipWs l := by
  induction l with
  | nil => rfl
  | cons c cs ih =>
    by_cases h : isWsChar c = true
    · simpa [skipWs_cons_of_ws h]
    · rw [skipWs_cons_of_not_ws (by simpa using h),
        skipWs_cons_of_not_ws (by simpa using h)]

/-! ## Digit-string lemmas (`str(int)` round trip) -/

theorem digitChar_toNat {d : Nat} (h : d < 10) : (Nat.digitChar d).toNat = 48 + d := by
  interval_cases d <;> rfl

theorem digitChar_isDigit {d : Nat} (h : d < 10) : isDigitChar (Nat.digitChar d) = true := by
  interval_cases d <;> rfl

theorem natCharsAux_ne_nil {f n : Nat} (h : n < 10 ^ f) (hf : 0 < f) :
    natCharsAux f n ≠ [] := by
  cases f with
  | zero => omega
  | succ g =>
    by_cases h10 : n < 10
    · simp [natCharsAux, h10]
    · simp only [natCharsAux, h10, if_false]
      intro hcontra
      exact absurd (List.append_eq_nil.mp hcontra).2 (by simp)

theorem natCharsAux_digits {f n : Nat} (h : n < 10 ^ f) :
    ∀ c ∈ natCharsAux f n, isDigitChar c = true := by
  induction f generalizing n with
  | zero => simp [natCharsAux]
  | succ g ih =>
    by_cases h10 : n < 10
    · simp only [natCharsAux, h10, if_true, List.mem_singleton]
      rintro c rfl
      exact digitChar_isDigit h10
    · simp only [natCharsAux, h10, if_false, List.mem_append, List.mem_singleton]
      rintro c (hc | rfl)
      · exact ih (by rw [pow_succ] at h; omega) c hc
      · exact digitChar_isDigit (Nat.mod_lt _ (by omega))

theorem digitsVal_append_singleton (l : List Char) (c : Char) :
    digitsVal (l ++ [c]) = 10 * digitsVal l + (c.toNat - 48) := by
  simp [digitsVal, List.foldl_append]

theorem natCharsAux_val {f n : Nat} (h : n < 10 ^ f) :
    digitsVal (natCharsAux f n) = n := by
  induction f generalizing n with
  | zero => simp at h; simp [natCharsAux, digitsVal, h]
  | succ g ih =>
    by_cases h10 : n < 10
    · simp [natCharsAux, h10, digitsVal, digitChar_toNat h10]
    · rw [pow_succ] at h
      have hdiv : n / 10 < 10 ^ g := by
        rw [Nat.div_lt_iff_lt_mul (by omega)]; omega
      simp only [natCharsAux, h10, if_false]
      rw [digitsVal_append_singleton, ih hdiv,
        digitChar_toNat (Nat.mod_lt _ (by omega))]
      omega

theorem nat_lt_pow_self (n : Nat) : n < 10 ^ (n + 1) :=
  lt_of_lt_of_le (Nat.lt_pow_self (by omega) n)
    (Nat.pow_le_pow_right (by omega) (by omega))

theorem natChars_ne_nil (n : Nat) : natChars n ≠ [] :=
  natCharsAux_ne_nil (nat_lt_pow_self n) (by omega)

theorem natChars_digits (n : Nat) : ∀ c ∈ natChars n, isDigitChar c = true :=
  natCharsAux_digits (nat_lt_pow_self n)

theorem natChars_val (n : Nat) : digitsVal (natChars n) = n :=
  natCharsAux_val (nat_lt_pow_self n)

theorem takeDigits_append {l r : List Char} (hl : ∀ c ∈ l, isDigitChar c = true)
    (hr : ∀ c rs, r = c :: rs → isDigitChar c = false) :
    takeDigits (l ++ r) = (l, r) := by
  induction l with
  | nil =>
    cases r with
    | nil => rfl
    | cons c rs => simp [takeDigits, hr c rs rfl]
  | cons c cs ih =>
    have hc := hl c (by simp)
    simp only [List.cons_append, takeDigits, hc, if_true, List.append_eq]
    rw [ih (fun x hx => hl x (by simp [hx]))]

/-! ## String-escape round trip -/

theorem hexVal_hexChar {d : Nat} (h : d < 16) : hexVal (hexChar d) = some d := by
  interval_cases d <;> rfl

theorem parseStrBody_encChar (c : Char) (X : List Char) :
    parseStrBody (encChar c ++ X) =
      (parseStrBody X).map (fun p => (c :: p.1, p.2)) := by
  by_cases h1 : c = '"'
  · subst h1; rfl
  by_cases h2 : c = '\\'
  · subst h2; rfl
  by_cases h3 : c = '\n'
  · subst h3; rfl
  by_cases h4 : c = '\t'
  · subst h4; rfl
  by_cases h5 : c = '\r'
  · subst h5; rfl
  by_cases h6 : c.toNat = 8
  · have : c = Char.ofNat 8 := by
      rw [← Char.ofNat_toNat c, h6]
    subst this
    rfl
  by_cases h7 : c.toNat = 12
  · have : c = Char.ofNat 12 := by
      rw [← Char.ofNat_toNat c, h7]
    subst this
    rfl
  by_cases h8 : c.toNat < 32
  · simp only [encChar, h1, h2, h3, h4, h5, h6, h7, h8, if_false, if_true,
      if_neg, List.cons_append, List.nil_append]
    have hdiv : c.toNat / 16 < 16 := by omega
    have hmod : c.toNat % 16 < 16 := Nat.mod_lt _ (by omega)
    have h0 : hexVal '0' = some 0 := rfl
    simp only [parseStrBody, if_pos rfl, if_neg (by decide : ('\\' : Char) ≠ '"'),
      h0, hexVal_hexChar hdiv, hexVal_hexChar hmod]
    have hval : ((0 * 16 + 0) * 16 + c.toNat / 16) * 16 + c.toNat % 16 = c.toNat := by
      omega
    rw [hval, Char.ofNat_toNat]
    simp
  · simp only [encChar, h1, h2, h3, h4, h5, h6, h7, h8, if_false, List.cons_append,
      List.nil_append]
    conv_lhs => rw [parseStrBody.eq_def]
    simp only []
    rw [if_neg h1, if_neg h2]

theorem parseStrBody_encStr (l : List Char) (rest : List Char) :
    parseStrBody (encStr l ++ '"' :: rest) = some (l, rest) := by
  induction l with
  | nil =>
    show parseStrBody ('"' :: rest) = some ([], rest)
    rw [parseStrBody.eq_def]
    simp
  | cons c cs ih =>
    rw [encStr, List.append_assoc, parseStrBody_encChar, ih]
    rfl

/-! ## Number round trip -/

/-- The remainder after a rendered number may not begin with a digit or a
dot (inside a document it begins with a comma, a newline or a closing
bracket). -/
def restOk : List Char → Bool
  | [] => true
  | c :: _ => !isDigitChar c && c != '.'

theorem restOk_head {c : Char} {r : List Char} (h : restOk (c :: r) = true) :
    isDigitChar c = false ∧ c ≠ '.' := by
  simp only [restOk, Bool.and_eq_true, Bool.not_eq_true', bne_iff_ne] at h
  exact h

theorem takeDigits_natChars (n : Nat) {rest : List Char} (h : restOk rest = true) :
    takeDigits (natChars n ++ rest) = (natChars n, rest) := by
  refine takeDigits_append (natChars_digits n) ?_
  rintro c rs rfl
  exact (restOk_head h).1

theorem natChars_head_digit (n : Nat) :
    ∃ c cs, natChars n = c :: cs ∧ isDigitChar c = true := by
  rcases hl : natChars n with _ | ⟨c, cs⟩
  · exact absurd hl (natChars_ne_nil n)
  · exact ⟨c, cs, rfl, natChars_digits n c (by rw [hl]; simp)⟩

theorem parseUnsigned_natChars (n : Nat) {rest : List Char} (h : restOk rest = true) :
    parseUnsigned (natChars n ++ rest) = some (.num (Int.ofNat n), rest) := by
  obtain ⟨c, cs, hl, _⟩ := natChars_head_digit n
  rw [parseUnsigned, takeDigits_natChars n h, hl]
  simp only []
  have hval : digitsVal (c :: cs) = n := by rw [← hl]; exact natChars_val n
  cases rest with
  | nil => simp [hval]
  | cons r rs =>
    obtain ⟨_, hdot⟩ := restOk_head h
    simp only []
    rw [if_neg hdot, hval]

theorem parseNum_cons_not_dash {c : Char} (hc : c ≠ '-') (cs : List Char) :
    parseNum (c :: cs) = parseUnsigned (c :: cs) := by
  rw [parseNum, if_neg hc]

theorem natChars_head_ne_dash (n : Nat) :
    ∃ c cs, natChars n = c :: cs ∧ c ≠ '-' ∧ isDigitChar c = true := by
  obtain ⟨c, cs, hl, hd⟩ := natChars_head_digit n
  refine ⟨c, cs, hl, ?_, hd⟩
  intro hcontra
  subst hcontra
  exact absurd hd (by decide)

theorem parseNum_intChars (i : Int) {rest : List Char} (h : restOk rest = true) :
    parseNum (intChars i ++ rest) = some (.num i, rest) := by
  cases i with
  | ofNat n =>
    rw [intChars]
    obtain ⟨c, cs, hl, hnd, _⟩ := natChars_head_ne_dash n
    rw [hl, List.cons_append, parseNum_cons_not_dash hnd, ← List.cons_append, ← hl]
    exact parseUnsigned_natChars n h
  | negSucc n =>
    rw [intChars]
    show parseNum ('-' :: (natChars (n + 1) ++ rest)) = _
    rw [parseNum, if_pos rfl, parseUnsigned_natChars (n + 1) h]
    simp [negNum, Int.negSucc_eq]

theorem fracChars_digits {frac : List Nat} (h : frac.all (fun d => d < 10) = true) :
    ∀ c ∈ frac.map Nat.digitChar, isDigitChar c = true := by
  intro c hc
  rw [List.mem_map] at hc
  obtain ⟨d, hd, rfl⟩ := hc
  exact digitChar_isDigit (by simpa using List.all_eq_true.mp h d hd)

theorem fracChars_val {frac : List Nat} (h : frac.all (fun d => d < 10) = true) :
    (frac.map Nat.digitChar).map (fun c => c.toNat - 48) = frac := by
  induction frac with
  | nil => rfl
  | cons d ds ih =>
    simp only [List.all_cons, Bool.and_eq_true, decide_eq_true_eq] at h
    simp only [List.map_cons, List.map_map]
    rw [List.cons.injEq]
    constructor
    · rw [digitChar_toNat h.1]; omega
    · simpa [List.map_map] using ih (by simpa using h.2)

theorem parseUnsigned_decChars (i : Nat) (frac : List Nat)
    (hc : decCanon i frac = true) {rest : List Char} (h : restOk rest = true) :
    parseUnsigned (decChars false i frac ++ rest) = some (.dec false i frac, rest) := by
  have hd10 : frac.all (fun d => d < 10) = true := by
    simp only [decCanon, Bool.and_eq_true] at hc
    exact hc.1.1.1.2
  have hne : frac ≠ [] := by
    simp only [decCanon, Bool.and_eq_true] at hc
    simpa [List.isEmpty_iff] using hc.1.1.1.1
  obtain ⟨c, cs, hl, _⟩ := natChars_head_digit i
  have hfrac : takeDigits (frac.map Nat.digitChar ++ rest) = (frac.map Nat.digitChar, rest) := by
    refine takeDigits_append (fracChars_digits hd10) ?_
    rintro x rs rfl
    exact (restOk_head h).1
  rcases hfl : frac.map Nat.digitChar with _ | ⟨fc, fcs⟩
  · exact absurd (by simpa using hfl) hne
  · have hshape : decChars false i frac ++ rest
        = natChars i ++ ('.' :: (frac.map Nat.digitChar ++ rest)) := by
      simp [decChars]
    rw [hshape, parseUnsigned,
      takeDigits_append (natChars_digits i)
        (by intro x rs hx; injection hx with h1 _; exact h1 ▸ rfl),
      hl]
    simp only [if_true]
    rw [hfrac, hfl]
    simp only []
    rw [← hfl, fracChars_val hd10, ← hl, natChars_val]

theorem parseNum_decChars (neg : Bool) (i : Nat) (frac : List Nat)
    (hc : decCanon i frac = true) {rest : List Char} (h : restOk rest = true) :
    parseNum (decChars neg i frac ++ rest) = some (.dec neg i frac, rest) := by
  cases neg with
  | false =>
    obtain ⟨c, cs, hl, hnd, _⟩ := natChars_head_ne_dash i
    have hshape : decChars false i frac ++ rest
        = c :: (cs ++ '.' :: (frac.map Nat.digitChar ++ rest)) := by
      simp [decChars, hl]
    rw [hshape, parseNum_cons_not_dash hnd, ← hshape]
    exact parseUnsigned_decChars i frac hc h
  | true =>
    have hstep : decChars true i frac = '-' :: decChars false i frac := by
      simp [decChars]
    rw [hstep]
    show parseNum ('-' :: (decChars false i frac ++ rest)) = _
    rw [parseNum, if_pos rfl, parseUnsigned_decChars i frac hc h]
    rfl

/-! ## Dict-building round trip -/

theorem objAppend_onil (a : JObj) : objAppend a .onil = a := by
  match a with
  | .onil => rfl
  | .ocons k v tl => rw [objAppend, objAppend_onil tl]

theorem objSet_absent {k : String} (acc : JObj) (h : keyMem k acc = false) (v : JVal) :
    objSet acc k v = objAppend acc (.ocons k v .onil) := by
  match acc with
  | .onil => rfl
  | .ocons k' v' tl =>
    simp only [keyMem, Bool.or_eq_false_iff, decide_eq_false_iff_not] at h
    rw [objSet, if_neg (fun hc => h.1 (hc.symm)), objAppend,
      objSet_absent tl h.2 v]

theorem keyMem_objAppend (k : String) (a b : JObj) :
    keyMem k (objAppend a b) = (keyMem k a || keyMem k b) := by
  match a with
  | .onil => simp [objAppend, keyMem]
  | .ocons k' v' tl =>
    simp [objAppend, keyMem, keyMem_objAppend k tl b, Bool.or_assoc]

theorem objAppend_assoc (a b c : JObj) :
    objAppend (objAppend a b) c = objAppend a (objAppend b c) := by
  match a with
  | .onil => rfl
  | .ocons k v tl => simp [objAppend, objAppend_assoc tl b c]

theorem dedupAux_distinct {fs : JObj} (hd : distinctKeys fs = true) :
    ∀ acc : JObj, (∀ k, keyMem k fs = true → keyMem k acc = false) →
      dedupAux acc fs = objAppend acc fs := by
  match fs with
  | .onil =>
    intro acc _
    rw [dedupAux, objAppend_onil]
  | .ocons k v tl =>
    intro acc hdisj
    simp only [distinctKeys, Bool.and_eq_true, Bool.not_eq_true'] at hd
    rw [dedupAux, objSet_absent acc (hdisj k (by simp [keyMem])) v]
    rw [dedupAux_distinct hd.2 _ ?hdisj2]
    case hdisj2 =>
      intro k' hk'
      rw [keyMem_objAppend]
      simp only [Bool.or_eq_false_iff]
      constructor
      · exact hdisj k' (by simp [keyMem, hk'])
      · simp only [keyMem, Bool.or_eq_false_iff, decide_eq_false_iff_not]
        refine ⟨?_, trivial⟩
        intro hcontra
        subst hcontra
        rw [hk'] at hd
        exact absurd hd.1 (by simp)
    rw [objAppend_assoc]
    rfl

theorem dedup_distinct {fs : JObj} (hd : distinctKeys fs = true) : dedup fs = fs := by
  rw [dedup, dedupAux_distinct hd .onil (fun _ _ => rfl)]
  rfl

/-! ## Shape facts about rendered values -/

/-- A character that may begin a rendered value: never whitespace and
never a closing bracket. -/
def isValHead (c : Char) : Bool :=
  !isWsChar c && c != ']' && c != '}'

theorem isValHead_of_digit {c : Char} (h : isDigitChar c = true) :
    isValHead c = true := by
  obtain ⟨h1, h2, _⟩ := digit_ne_special h
  simp [isValHead, isWs_of_digit h, h1, h2]

theorem renderV_head (ind : Nat) (v : JVal) :
    ∃ c cs, renderV ind v = c :: cs ∧ isValHead c = true := by
  cases v with
  | null => exact ⟨'n', _, rfl, by decide⟩
  | bool b => cases b with
    | true => exact ⟨'t', _, rfl, by decide⟩
    | false => exact ⟨'f', _, rfl, by decide⟩
  | num i =>
    cases i with
    | ofNat n =>
      obtain ⟨c, cs, hl, hd⟩ := natChars_head_digit n
      exact ⟨c, cs, by rw [renderV, intChars, hl], isValHead_of_digit hd⟩
    | negSucc n =>
      exact ⟨'-', _, by rw [renderV, intChars], by decide⟩
  | dec neg i frac =>
    cases neg with
    | true =>
      refine ⟨'-', natChars i ++ '.' :: frac.map Nat.digitChar, ?_, by decide⟩
      rw [renderV]
      simp [decChars]
    | false =>
      obtain ⟨c, cs, hl, hd⟩ := natChars_head_digit i
      refine ⟨c, cs ++ '.' :: frac.map Nat.digitChar, ?_, isValHead_of_digit hd⟩
      rw [renderV]
      simp [decChars, hl]
  | str s => exact ⟨'"', _, rfl, by decide⟩
  | arr xs => cases xs with
    | nil => exact ⟨'[', _, rfl, by decide⟩
    | cons v tl => exact ⟨'[', _, rfl, by decide⟩
  | obj fs => cases fs with
    | onil => exact ⟨'{', _, rfl, by decide⟩
    | ocons k v tl => exact ⟨'{', _, rfl, by decide⟩

theorem natChars_length_pos (n : Nat) : 0 < (natChars n).length := by
  rcases hl : natChars n with _ | ⟨c, cs⟩
  · exact absurd hl (natChars_ne_nil n)
  · simp

mutual
theorem jsizeV_le_render (ind : Nat) (v : JVal) :
    jsizeV v ≤ (renderV ind v).length := by
  cases v with
  | null => simp [jsizeV, renderV]
  | bool b => cases b <;> simp [jsizeV, renderV]
  | num i =>
    cases i with
    | ofNat n =>
      have := natChars_length_pos n
      simp only [jsizeV, renderV, intChars]
      omega
    | negSucc n => simp [jsizeV, renderV, intChars]
  | dec neg i frac =>
    cases neg with
    | true =>
      show 1 ≤ (decChars true i frac).length
      have hsh : decChars true i frac
          = '-' :: (natChars i ++ '.' :: frac.map Nat.digitChar) := by
        simp [decChars]
      rw [hsh]
      simp
    | false =>
      show 1 ≤ (decChars false i frac).length
      have hsh : decChars false i frac
          = natChars i ++ '.' :: frac.map Nat.digitChar := by
        simp [decChars]
      rw [hsh]
      simp
      omega
  | str s => simp [jsizeV, renderV]
  | arr xs =>
    cases xs with
    | nil => simp [jsizeV, renderV, jsizeA]
    | cons v tl =>
      have h := jsizeA_le_items (ind + 1) (.cons v tl)
      simp only [jsizeV, renderV, List.length_cons, List.length_append]
      omega
  | obj fs =>
    cases fs with
    | onil => simp [jsizeV, renderV, jsizeO]
    | ocons k v tl =>
      have h := jsizeO_le_fields (ind + 1) (.ocons k v tl)
      simp only [jsizeV, renderV, List.length_cons, List.length_append,
        List.length_singleton]
      omega
theorem jsizeA_le_items (ind : Nat) (xs : JArr) :
    jsizeA xs ≤ (renderItems ind xs).length + 1 := by
  cases xs with
  | nil => simp [jsizeA, renderItems]
  | cons v tl =>
    cases tl with
    | nil =>
      have h := jsizeV_le_render ind v
      simp only [jsizeA, renderItems, List.length_append, jsizeA]
      omega
    | cons w tl2 =>
      have h1 := jsizeV_le_render ind v
      have h2 := jsizeA_le_items ind (.cons w tl2)
      rw [jsizeA]
      simp only [renderItems, List.length_append, List.length_cons]
      omega
theorem jsizeO_le_fields (ind : Nat) (fs : JObj) :
    jsizeO fs ≤ (renderFields ind fs).length + 1 := by
  cases fs with
  | onil => simp [jsizeO, renderFields]
  | ocons k v tl =>
    cases tl with
    | onil =>
      have h := jsizeV_le_render ind v
      simp only [jsizeO, renderFields, List.length_append, List.length_cons, jsizeO]
      omega
    | ocons k2 w tl2 =>
      have h1 := jsizeV_le_render ind v
      have h2 := jsizeO_le_fields ind (.ocons k2 w tl2)
      rw [jsizeO]
      simp only [renderFields, List.length_append, List.length_cons]
      omega
end

/-! ## Parser stepping lemmas -/

theorem string_mk_data (s : String) : String.mk s.data = s := by
  cases s
  rfl

theorem parseVal_succ (g : Nat) (c : Char) (r : List Char) :
    parseVal (g + 1) (c :: r) = parseValCore (parseItems g) (parseFields g) c r := rfl

theorem parseValCore_num {c : Char} (h : isDigitChar c = true ∨ c = '-')
    (pI : List Char → Option (JArr × List Char))
    (pF : List Char → Option (JObj × List Char)) (r : List Char) :
    parseValCore pI pF c r = parseNum (c :: r) := by
  have hfacts : c ≠ 'n' ∧ c ≠ 't' ∧ c ≠ 'f' ∧ c ≠ '"' ∧ c ≠ '[' ∧ c ≠ '{' := by
    rcases h with hd | rfl
    · simp only [isDigitChar, Bool.and_eq_true, decide_eq_true_eq] at hd
      refine ⟨?_, ?_, ?_, ?_, ?_, ?_⟩ <;> (intro hc; subst hc; exact absurd hd (by decide))
    · exact ⟨by decide, by decide, by decide, by decide, by decide, by decide⟩
  obtain ⟨h1, h2, h3, h4, h5, h6⟩ := hfacts
  unfold parseValCore
  rw [if_neg h1, if_neg h2, if_neg h3, if_neg h4, if_neg h5, if_neg h6]

theorem parseValCore_arr {c2 : Char} {r1 : List Char}
    (pI : List Char → Option (JArr × List Char))
    (pF : List Char → Option (JObj × List Char))
    {r : List Char} (hskip : skipWs r = c2 :: r1) (hne : c2 ≠ ']') :
    parseValCore pI pF '[' r = (pI (c2 :: r1)).map (fun p => (JVal.arr p.1, p.2)) := by
  unfold parseValCore
  rw [if_neg (by decide), if_neg (by decide), if_neg (by decide), if_neg (by decide),
    if_pos rfl, hskip]
  simp only []
  rw [if_neg hne]

theorem parseValCore_obj {c2 : Char} {r1 : List Char}
    (pI : List Char → Option (JArr × List Char))
    (pF : List Char → Option (JObj × List Char))
    {r : List Char} (hskip : skipWs r = c2 :: r1) (hne : c2 ≠ '}') :
    parseValCore pI pF '{' r = (pF (c2 :: r1)).map (fun p => (JVal.obj (dedup p.1), p.2)) := by
  unfold parseValCore
  rw [if_neg (by decide), if_neg (by decide), if_neg (by decide), if_neg (by decide),
    if_neg (by decide), if_pos rfl, hskip]
  simp only []
  rw [if_neg hne]

theorem parseItems_congr {a b : List Char} (h : skipWs a = skipWs b) (f : Nat) :
    parseItems f a = parseItems f b := by
  cases f with
  | zero => rfl
  | succ g => rw [parseItems, parseItems, h]

theorem parseFields_congr {a b : List Char} (h : skipWs a = skipWs b) (f : Nat) :
    parseFields f a = parseFields f b := by
  cases f with
  | zero => rfl
  | succ g => rw [parseFields, parseFields, h]

theorem ws_not_digit_dot {c : Char} (h : isWsChar c = true) :
    isDigitChar c = false ∧ c ≠ '.' := by
  simp only [isWsChar, Bool.or_eq_true, decide_eq_true_eq] at h
  rcases h with ((rfl | rfl) | rfl) | rfl <;> exact ⟨by decide, by decide⟩

theorem restOk_allWs_cons {ws : List Char} (hws : allWs ws = true) {c : Char}
    (hc : isDigitChar c = false) (hdot : c ≠ '.') (rest : List Char) :
    restOk (ws ++ c :: rest) = true := by
  cases ws with
  | nil => simp [restOk, hc, hdot]
  | cons w ws2 =>
    simp only [allWs, List.all_cons, Bool.and_eq_true] at hws
    obtain ⟨h1, h2⟩ := ws_not_digit_dot hws.1
    simp [restOk, h1, h2]

theorem skipWs_valHead {c : Char} (h : isValHead c = true) (l : List Char) :
    skipWs (c :: l) = c :: l := by
  simp only [isValHead, Bool.and_eq_true, Bool.not_eq_true', bne_iff_ne] at h
  exact skipWs_cons_of_not_ws h.1.1 l

theorem valHead_ne_brackets {c : Char} (h : isValHead c = true) :
    c ≠ ']' ∧ c ≠ '}' := by
  simp only [isValHead, Bool.and_eq_true, Bool.not_eq_true', bne_iff_ne] at h
  exact ⟨h.1.2, h.2⟩

theorem parseValCore_quote (pI : List Char → Option (JArr × List Char))
    (pF : List Char → Option (JObj × List Char)) (r : List Char) :
    parseValCore pI pF '"' r
      = (parseStrBody r).map (fun p => (JVal.str (String.mk p.1), p.2)) := by
  unfold parseValCore
  rw [if_neg (by decide), if_neg (by decide), if_neg (by decide), if_pos rfl]

theorem parseItemsStep_comma {r r2 : List Char} (hskip : skipWs r = ',' :: r2)
    (pA : List Char → Option (JArr × List Char)) (v : JVal) :
    parseItemsStep pA v r = (pA r2).map (fun p => (JArr.cons v p.1, p.2)) := by
  unfold parseItemsStep
  rw [hskip]
  simp only []
  rw [if_pos trivial]

theorem parseItemsStep_close {r r2 : List Char} (hskip : skipWs r = ']' :: r2)
    (pA : List Char → Option (JArr × List Char)) (v : JVal) :
    parseItemsStep pA v r = some (.cons v .nil, r2) := by
  unfold parseItemsStep
  rw [hskip]
  simp only []
  rw [if_neg (by decide), if_pos trivial]

theorem parseFieldsStep_comma {r r2 : List Char} (hskip : skipWs r = ',' :: r2)
    (pO : List Char → Option (JObj × List Char)) (k : List Char) (v : JVal) :
    parseFieldsStep pO k v r
      = (pO r2).map (fun p => (JObj.ocons (String.mk k) v p.1, p.2)) := by
  unfold parseFieldsStep
  rw [hskip]
  simp only []
  rw [if_pos trivial]

theorem parseFieldsStep_close {r r2 : List Char} (hskip : skipWs r = '}' :: r2)
    (pO : List Char → Option (JObj × List Char)) (k : List Char) (v : JVal) :
    parseFieldsStep pO k v r = some (.ocons (String.mk k) v .onil, r2) := by
  unfold parseFieldsStep
  rw [hskip]
  simp only []
  rw [if_neg (by decide), if_pos trivial]

/-- Shape of a nonempty array's rendered items. -/
theorem renderItems_shape (ind : Nat) (v : JVal) (tl : JArr) :
    ∃ T, renderItems ind (.cons v tl) = sp (2 * ind) ++ (renderV ind v ++ T) := by
  cases tl with
  | nil => exact ⟨[], by rw [renderItems, List.append_nil]⟩
  | cons w tl2 =>
    exact ⟨',' :: '\n' :: renderItems ind (.cons w tl2), by rw [renderItems]⟩

/-- Shape of a nonempty object's rendered fields. -/
theorem renderFields_shape (ind : Nat) (k : String) (v : JVal) (tl : JObj) :
    ∃ T, renderFields ind (.ocons k v tl)
      = sp (2 * ind) ++ ('"' :: (encStr k.data ++ '"' :: ':' :: ' ' :: (renderV ind v ++ T))) := by
  cases tl with
  | onil => exact ⟨[], by rw [renderFields, List.append_nil]⟩
  | ocons k2 w tl2 =>
    exact ⟨',' :: '\n' :: renderFields ind (.ocons k2 w tl2), by rw [renderFields]⟩

theorem allWs_nl_sp (n : Nat) : allWs ('\n' :: sp n) = true := by
  simp only [allWs, List.all_cons, Bool.and_eq_true]
  constructor
  · rfl
  · rw [List.all_eq_true]
    intro c hc
    rw [sp, List.mem_replicate] at hc
    rw [hc.2]
    rfl

theorem skipWs_sp_render (n ind : Nat) (v : JVal) (X : List Char) :
    skipWs (sp n ++ (renderV ind v ++ X)) = renderV ind v ++ X := by
  obtain ⟨c, cs, hl, hch⟩ := renderV_head ind v
  rw [skipWs_sp_append, hl, List.cons_append, skipWs_valHead hch]

theorem skipWs_renderItems_append (ind : Nat) (v : JVal) (tl : JArr) (X : List Char) :
    ∃ T, skipWs (renderItems ind (.cons v tl) ++ X) = renderV ind v ++ (T ++ X) ∧
      renderItems ind (.cons v tl) = sp (2 * ind) ++ (renderV ind v ++ T) := by
  obtain ⟨T, hT⟩ := renderItems_shape ind v tl
  refine ⟨T, ?_, hT⟩
  rw [hT]
  rw [List.append_assoc, List.append_assoc, skipWs_sp_render]

theorem skipWs_renderFields_append (ind : Nat) (k : String) (v : JVal) (tl : JObj)
    (X : List Char) :
    ∃ T, skipWs (renderFields ind (.ocons k v tl) ++ X)
        = '"' :: ((encStr k.data ++ '"' :: ':' :: ' ' :: (renderV ind v ++ T)) ++ X) ∧
      renderFields ind (.ocons k v tl)
        = sp (2 * ind) ++ ('"' :: (encStr k.data ++ '"' :: ':' :: ' ' :: (renderV ind v ++ T))) := by
  obtain ⟨T, hT⟩ := renderFields_shape ind k v tl
  refine ⟨T, ?_, hT⟩
  rw [hT]
  rw [List.append_assoc, List.cons_append, skipWs_sp_append,
    skipWs_cons_of_not_ws (by decide)]

/-- The fuelled parser recovers every rendered well-formed value: the main
round-trip invariant, by induction on the fuel. -/
theorem parseRound (f : Nat) :
    (∀ (ind : Nat) (v : JVal) (rest : List Char), jsizeV v < f → wfV v = true →
        restOk rest = true →
        parseVal f (renderV ind v ++ rest) = some (v, rest)) ∧
    (∀ (ind : Nat) (xs : JArr) (ws rest : List Char), jsizeA xs < f → wfA xs = true →
        xs ≠ .nil → allWs ws = true →
        parseItems f (renderItems ind xs ++ (ws ++ ']' :: rest)) = some (xs, rest)) ∧
    (∀ (ind : Nat) (fs : JObj) (ws rest : List Char), jsizeO fs < f → wfO fs = true →
        fs ≠ .onil → allWs ws = true →
        parseFields f (renderFields ind fs ++ (ws ++ '}' :: rest)) = some (fs, rest)) := by
  induction f with
  | zero =>
    exact ⟨fun _ _ _ h _ _ => absurd h (Nat.not_lt_zero _),
      fun _ xs _ _ h hwf hne _ => absurd h (by
        cases xs with
        | nil => exact absurd rfl hne
        | cons v tl => simp [jsizeA]),
      fun _ fs _ _ h hwf hne _ => absurd h (by
        cases fs with
        | onil => exact absurd rfl hne
        | ocons k v tl => simp [jsizeO])⟩
  | succ g ih =>
    obtain ⟨ihV, ihA, ihO⟩ := ih
    refine ⟨?_, ?_, ?_⟩
    · -- values
      intro ind v rest hsz hwf hro
      cases v with
      | null => rfl
      | bool b => cases b <;> rfl
      | num i =>
        obtain ⟨c, cs, hl, hd⟩ : ∃ c cs, intChars i = c :: cs ∧
            (isDigitChar c = true ∨ c = '-') := by
          cases i with
          | ofNat n =>
            obtain ⟨c, cs, h1, h2⟩ := natChars_head_digit n
            exact ⟨c, cs, by rw [intChars, h1], Or.inl h2⟩
          | negSucc n => exact ⟨'-', _, by rw [intChars], Or.inr rfl⟩
        show parseVal (g + 1) (intChars i ++ rest) = some (.num i, rest)
        rw [hl, List.cons_append, parseVal_succ, parseValCore_num hd,
          ← List.cons_append, ← hl]
        exact parseNum_intChars i hro
      | dec neg i frac =>
        have hwf' : decCanon i frac = true := hwf
        obtain ⟨c, cs, hl, hd⟩ : ∃ c cs, decChars neg i frac = c :: cs ∧
            (isDigitChar c = true ∨ c = '-') := by
          cases neg with
          | true =>
            refine ⟨'-', natChars i ++ '.' :: frac.map Nat.digitChar, ?_, Or.inr rfl⟩
            simp [decChars]
          | false =>
            obtain ⟨c, cs, h1, h2⟩ := natChars_head_digit i
            refine ⟨c, cs ++ '.' :: frac.map Nat.digitChar, ?_, Or.inl h2⟩
            simp [decChars, h1]
        show parseVal (g + 1) (decChars neg i frac ++ rest) = some (.dec neg i frac, rest)
        rw [hl, List.cons_append, parseVal_succ, parseValCore_num hd,
          ← List.cons_append, ← hl]
        exact parseNum_decChars neg i frac hwf' hro
      | str s =>
        show parseVal (g + 1) ('"' :: ((encStr s.data ++ ['"']) ++ rest))
            = some (.str s, rest)
        rw [parseVal_succ, parseValCore_quote]
        rw [List.append_assoc, List.singleton_append, parseStrBody_encStr]
        simp [string_mk_data]
      | arr xs =>
        cases xs with
        | nil => rfl
        | cons v tl =>
          have key : renderV ind (.arr (.cons v tl)) ++ rest
              = '[' :: ('\n' :: (renderItems (ind + 1) (.cons v tl)
                  ++ ('\n' :: (sp (2 * ind) ++ ']' :: rest)))) := by
            rw [renderV]
            simp [List.append_assoc]
          rw [key, parseVal_succ]
          obtain ⟨T, hskipT, hT⟩ :=
            skipWs_renderItems_append (ind + 1) v tl ('\n' :: (sp (2 * ind) ++ ']' :: rest))
          obtain ⟨c, cs', hlv, hch⟩ := renderV_head (ind + 1) v
          have hskipR : skipWs ('\n' :: (renderItems (ind + 1) (.cons v tl)
                  ++ ('\n' :: (sp (2 * ind) ++ ']' :: rest))))
              = c :: (cs' ++ (T ++ ('\n' :: (sp (2 * ind) ++ ']' :: rest)))) := by
            rw [skipWs_cons_of_ws (by decide), hskipT, hlv, List.cons_append]
          rw [parseValCore_arr _ _ hskipR (valHead_ne_brackets hch).1]
          have hcongr : parseItems g
                (c :: (cs' ++ (T ++ ('\n' :: (sp (2 * ind) ++ ']' :: rest)))))
              = parseItems g (renderItems (ind + 1) (.cons v tl)
                  ++ (('\n' :: sp (2 * ind)) ++ ']' :: rest)) := by
            apply parseItems_congr
            rw [skipWs_valHead hch]
            rw [show (('\n' :: sp (2 * ind)) ++ ']' :: rest)
                = ('\n' :: (sp (2 * ind) ++ ']' :: rest)) from rfl]
            rw [hskipT, hlv, List.cons_append]
          rw [hcongr]
          rw [ihA (ind + 1) (.cons v tl) ('\n' :: sp (2 * ind)) rest
            (by simp only [jsizeV] at hsz; omega) hwf
            (fun h => JArr.noConfusion h) (allWs_nl_sp _)]
          rfl
      | obj fs =>
        cases fs with
        | onil => rfl
        | ocons k v tl =>
          have hwf' : distinctKeys (.ocons k v tl) = true ∧ wfO (.ocons k v tl) = true := by
            have : wfV (.obj (.ocons k v tl)) = true := hwf
            rw [wfV, Bool.and_eq_true] at this
            exact this
          have key : renderV ind (.obj (.ocons k v tl)) ++ rest
              = '{' :: ('\n' :: (renderFields (ind + 1) (.ocons k v tl)
                  ++ ('\n' :: (sp (2 * ind) ++ '}' :: rest)))) := by
            rw [renderV]
            simp [List.append_assoc]
          rw [key, parseVal_succ]
          obtain ⟨T, hskipT, hT⟩ :=
            skipWs_renderFields_append (ind + 1) k v tl ('\n' :: (sp (2 * ind) ++ '}' :: rest))
          have hskipR : skipWs ('\n' :: (renderFields (ind + 1) (.ocons k v tl)
                  ++ ('\n' :: (sp (2 * ind) ++ '}' :: rest))))
              = '"' :: ((encStr k.data ++ '"' :: ':' :: ' ' :: (renderV (ind + 1) v ++ T))
                  ++ ('\n' :: (sp (2 * ind) ++ '}' :: rest))) := by
            rw [skipWs_cons_of_ws (by decide), hskipT]
          rw [parseValCore_obj _ _ hskipR (by decide)]
          have hcongr : parseFields g
                ('"' :: ((encStr k.data ++ '"' :: ':' :: ' ' :: (renderV (ind + 1) v ++ T))
                  ++ ('\n' :: (sp (2 * ind) ++ '}' :: rest))))
              = parseFields g (renderFields (ind + 1) (.ocons k v tl)
                  ++ (('\n' :: sp (2 * ind)) ++ '}' :: rest)) := by
            apply parseFields_congr
            rw [skipWs_cons_of_not_ws (by decide)]
            rw [show (('\n' :: sp (2 * ind)) ++ '}' :: rest)
                = ('\n' :: (sp (2 * ind) ++ '}' :: rest)) from rfl]
            rw [hskipT]
          rw [hcongr]
          rw [ihO (ind + 1) (.ocons k v tl) ('\n' :: sp (2 * ind)) rest
            (by simp only [jsizeV] at hsz; omega) hwf'.2
            (fun h => JObj.noConfusion h) (allWs_nl_sp _)]
          simp only [Option.map_some']
          rw [dedup_distinct hwf'.1]
    · -- array items
      intro ind xs ws rest hsz hwf hnil hws
      cases xs with
      | nil => exact absurd rfl hnil
      | cons v tl =>
        have hszV : jsizeV v < g ∧ jsizeA tl < g := by
          simp only [jsizeA] at hsz
          constructor <;> omega
        have hwfV : wfV v = true ∧ wfA tl = true := by
          have : wfA (.cons v tl) = true := hwf
          rw [wfA, Bool.and_eq_true] at this
          exact this
        obtain ⟨c, cs', hlv, hch⟩ := renderV_head ind v
        rw [parseItems]
        cases tl with
        | nil =>
          have hCS : renderItems ind (.cons v .nil) ++ (ws ++ ']' :: rest)
              = sp (2 * ind) ++ (renderV ind v ++ (ws ++ ']' :: rest)) := by
            rw [renderItems, List.append_assoc]
          rw [hCS, skipWs_sp_render]
          rw [ihV ind v (ws ++ ']' :: rest) hszV.1 hwfV.1
            (restOk_allWs_cons hws (by decide) (by decide) rest)]
          simp only []
          rw [parseItemsStep_close ?hcl]
          case hcl =>
            rw [skipWs_allWs_append hws, skipWs_cons_of_not_ws (by decide)]
        | cons w tl2 =>
          have hCS : renderItems ind (.cons v (.cons w tl2)) ++ (ws ++ ']' :: rest)
              = sp (2 * ind) ++ (renderV ind v
                  ++ (',' :: '\n' :: (renderItems ind (.cons w tl2) ++ (ws ++ ']' :: rest)))) := by
            rw [renderItems]
            simp [List.append_assoc]
          rw [hCS, skipWs_sp_render]
          rw [ihV ind v _ hszV.1 hwfV.1 (by rfl)]
          simp only []
          rw [parseItemsStep_comma (skipWs_cons_of_not_ws (by decide) _)]
          have hcongr : parseItems g
                ('\n' :: (renderItems ind (.cons w tl2) ++ (ws ++ ']' :: rest)))
              = parseItems g (renderItems ind (.cons w tl2) ++ (ws ++ ']' :: rest)) := by
            apply parseItems_congr
            rw [skipWs_cons_of_ws (by decide)]
          rw [hcongr]
          rw [ihA ind (.cons w tl2) ws rest hszV.2 hwfV.2 (fun h => JArr.noConfusion h) hws]
          rfl
    · -- object fields
      intro ind fs ws rest hsz hwf hnil hws
      cases fs with
      | onil => exact absurd rfl hnil
      | ocons k v tl =>
        have hszV : jsizeV v < g ∧ jsizeO tl < g := by
          simp only [jsizeO] at hsz
          constructor <;> omega
        have hwfV : wfV v = true ∧ wfO tl = true := by
          have : wfO (.ocons k v tl) = true := hwf
          rw [wfO, Bool.and_eq_true] at this
          exact this
        obtain ⟨c, cs', hlv, hch⟩ := renderV_head ind v
        have hskipVal : ∀ L : List Char,
            skipWs (' ' :: (renderV ind v ++ L)) = renderV ind v ++ L := by
          intro L
          rw [skipWs_cons_of_ws (by decide), hlv, List.cons_append,
            skipWs_valHead hch, ← List.cons_append, ← hlv]
        rw [parseFields]
        cases tl with
        | onil =>
          have hCS : renderFields ind (.ocons k v .onil) ++ (ws ++ '}' :: rest)
              = sp (2 * ind) ++ ('"' :: (encStr k.data
                  ++ ('"' :: (':' :: ' ' :: (renderV ind v ++ (ws ++ '}' :: rest)))))) := by
            rw [renderFields]
            simp [List.append_assoc]
          rw [hCS, skipWs_sp_append, skipWs_cons_of_not_ws (by decide)]
          simp only []
          rw [if_pos trivial, parseStrBody_encStr]
          simp only []
          rw [skipWs_cons_of_not_ws (by decide)]
          simp only []
          rw [if_pos trivial, hskipVal]
          rw [ihV ind v (ws ++ '}' :: rest) hszV.1 hwfV.1
            (restOk_allWs_cons hws (by decide) (by decide) rest)]
          simp only []
          have hcl : skipWs (ws ++ '}' :: rest) = '}' :: rest := by
            rw [skipWs_allWs_append hws, skipWs_cons_of_not_ws (by decide)]
          rw [parseFieldsStep_close hcl, string_mk_data]
        | ocons k2 w tl2 =>
          have hCS : renderFields ind (.ocons k v (.ocons k2 w tl2)) ++ (ws ++ '}' :: rest)
              = sp (2 * ind) ++ ('"' :: (encStr k.data
                  ++ ('"' :: (':' :: ' ' :: (renderV ind v
                    ++ (',' :: '\n' :: (renderFields ind (.ocons k2 w tl2)
                        ++ (ws ++ '}' :: rest)))))))) := by
            rw [renderFields]
            simp [List.append_assoc]
          rw [hCS, skipWs_sp_append, skipWs_cons_of_not_ws (by decide)]
          simp only []
          rw [if_pos trivial, parseStrBody_encStr]
          simp only []
          rw [skipWs_cons_of_not_ws (by decide)]
          simp only []
          rw [if_pos trivial, hskipVal]
          rw [ihV ind v _ hszV.1 hwfV.1 (by rfl)]
          simp only []
          rw [parseFieldsStep_comma (skipWs_cons_of_not_ws (by decide) _)]
          have hcongr : parseFields g
                ('\n' :: (renderFields ind (.ocons k2 w tl2) ++ (ws ++ '}' :: rest)))
              = parseFields g (renderFields ind (.ocons k2 w tl2) ++ (ws ++ '}' :: rest)) := by
            apply parseFields_congr
            rw [skipWs_cons_of_ws (by decide)]
          rw [hcongr]
          rw [ihO ind (.ocons k2 w tl2) ws rest hszV.2 hwfV.2
            (fun h => JObj.noConfusion h) hws]
          simp only [Option.map_some']

/-- `json.loads` inverts `DataExporter.to_json` on well-formed values. -/
theorem loads_to_json {v : JVal} (h : wfV v = true) :
    loads (DataExporter.to_json v) = some v := by
  obtain ⟨c, cs, hl, hch⟩ := renderV_head 0 v
  have hskip : skipWs (renderV 0 v) = renderV 0 v := by
    rw [hl]
    exact skipWs_valHead hch _
  have hfuel : jsizeV v < (renderV 0 v).length + 1 :=
    Nat.lt_succ_of_le (jsizeV_le_render 0 v)
  have hmain := (parseRound ((renderV 0 v).length + 1)).1 0 v [] hfuel h rfl
  rw [List.append_nil] at hmain
  rw [DataExporter.to_json, loads]
  rw [show (String.mk (renderV 0 v)).data = renderV 0 v from rfl, hskip, hmain]
  rfl

/-! ## Python `str()` / `repr()` of values (used by the XML and CSV exporters) -/

/-- Convert a Lean list of values to a `JArr`. -/
def jarrOf : List JVal → JArr
  | [] => .nil
  | v :: tl => .cons v (jarrOf tl)

mutual
/-- Python `str(v)`.  `repr` of strings is modelled for strings free of
quote and escape characters (the only forms the pipeline produces). -/
def pyStr : JVal → String
  | .null => "None"
  | .bool true => "True"
  | .bool false => "False"
  | .num i => String.mk (intChars i)
  | .dec neg i frac => String.mk (decChars neg i frac)
  | .str s => s
  | .arr xs => String.mk ('[' :: (pyReprItems xs ++ [']']))
  | .obj fs => String.mk ('{' :: (pyReprFields fs ++ ['}']))
/-- Python `repr(v)` over characters. -/
def pyReprV : JVal → List Char
  | .null => "None".data
  | .bool true => "True".data
  | .bool false => "False".data
  | .num i => intChars i
  | .dec neg i frac => decChars neg i frac
  | .str s => '\'' :: (s.data ++ ['\''])
  | .arr xs => '[' :: (pyReprItems xs ++ [']'])
  | .obj fs => '{' :: (pyReprFields fs ++ ['}'])
/-- `", "`-separated element reprs of a list. -/
def pyReprItems : JArr → List Char
  | .nil => []
  | .cons v .nil => pyReprV v
  | .cons v (.cons w tl) => pyReprV v ++ ',' :: ' ' :: pyReprItems (.cons w tl)
/-- `", "`-separated `'key': value` reprs of a dict. -/
def pyReprFields : JObj → List Char
  | .onil => []
  | .ocons k v .onil => '\'' :: (k.data ++ '\'' :: ':' :: ' ' :: pyReprV v)
  | .ocons k v (.ocons k2 w tl) =>
    '\'' :: (k.data ++ '\'' :: ':' :: ' ' ::
      (pyReprV v ++ ',' :: ' ' :: pyReprFields (.ocons k2 w tl)))
end

/-! ## `DataExporter.to_xml` (src/main.py lines 288-309)

The embedding stops at the `xml.etree.ElementTree` Element tree the code
builds; the final `ET.tostring` serialisation step is structure-preserving
and is not modelled. -/

/-- An `ElementTree` element: tag, optional text, child elements. -/
inductive XNode where
  | elem (tag : String) (text : Option String) (children : List XNode)

/-- Tag of an element. -/
def XNode.tag : XNode → String
  | .elem t _ _ => t

/-- Text of an element. -/
def XNode.text : XNode → Option String
  | .elem _ t _ => t

/-- Children of an element. -/
def XNode.children : XNode → List XNode
  | .elem _ _ c => c

mutual
/-- The inner `dict_to_xml(d, parent)`: the children appended to `parent`
for each key/value pair of `d`, in order. -/
def dictToXml : JObj → List XNode
  | .onil => []
  | .ocons k v tl => xmlChild k v :: dictToXml tl
/-- The child element built for one key/value pair. -/
def xmlChild (k : String) : JVal → XNode
  | .obj d => .elem k none (dictToXml d)
  | .arr xs => .elem k none (xmlItems xs)
  | v => .elem k (some (pyStr v)) []
/-- The repeated `item` children built for the elements of a list. -/
def xmlItems : JArr → List XNode
  | .nil => []
  | .cons (.obj d) tl => XNode.elem "item" none (dictToXml d) :: xmlItems tl
  | .cons it tl => XNode.elem "item" (some (pyStr it)) [] :: xmlItems tl
end

namespace DataExporter

/-- `DataExporter.to_xml`: root element `scraped_data` with the recursive
children; a non-dict argument makes `data.items()` raise. -/
def to_xml : JVal → Except String XNode
  | .obj d => .ok (.elem "scraped_data" none (dictToXml d))
  | _ => .error "AttributeError: object has no attribute items"

end DataExporter

/-! ## `DataExporter.to_csv` (src/main.py lines 267-281) -/

/-- pandas' rendering of one cell in `to_csv`: `None` becomes `NaN` and is
written empty; other values are written via `str`. -/
def csvCellStr : JVal → String
  | .null => ""
  | v => pyStr v

/-- Minimal CSV quoting, as the `csv` module's `QUOTE_MINIMAL`. -/
def csvField (s : String) : String :=
  if s.data.any (fun c => c = ',' || c = '"' || c = '\n' || c = '\r') then
    String.mk ('"' :: (s.data.flatMap (fun c => if c = '"' then ['"', '"'] else [c]) ++ ['"']))
  else s

/-- One CSV line with its terminator. -/
def csvLine (cells : List String) : String :=
  String.mk ((String.intercalate "," (cells.map csvField)).data ++ ['\n'])

/-- Keys of an object, in order. -/
def objKeys : JObj → List String
  | .onil => []
  | .ocons k _ tl => k :: objKeys tl

/-- Values of an object, in order. -/
def objVals : JObj → List JVal
  | .onil => []
  | .ocons _ v tl => v :: objVals tl

/-- `pd.DataFrame([data]).to_csv(index=False)`: the keys as the header
line and the values, rendered to strings, as the single data row. -/
def dfSingleRowCsv (d : JObj) : String :=
  csvLine (objKeys d) ++ csvLine ((objVals d).map csvCellStr)

/-- Elements of a `JArr` as a Lean list. -/
def jarrToList : JArr → List JVal
  | .nil => []
  | .cons v tl => v :: jarrToList tl

/-- `pd.DataFrame(rows).to_csv(index=False)` for rows that are lists:
integer column labels up to the widest row, ragged rows padded with `NaN`
(written empty). -/
def dfTableCsv (rows : List (List JVal)) : String :=
  let w := rows.foldl (fun acc r => max acc r.length) 0
  csvLine ((List.range w).map (fun j => String.mk (natChars j)))
    ++ String.join (rows.map (fun r =>
        csvLine (r.map csvCellStr ++ List.replicate (w - r.length) "")))

/-- A collected row that is itself a list, as every row of the page
script's tables is. -/
def isListRow : JVal → Bool
  | .arr _ => true
  | _ => false

/-- The cells of a collected list row. -/
def rowCells : JVal → List JVal
  | .arr xs => jarrToList xs
  | _ => []

/-- `pd.DataFrame(rows).to_csv(index=False)` for the collected rows: list
rows form a table; otherwise a single `0` column (the shapes the code can
reach with mixed rows are not exercised by the pipeline). -/
def dfRowsCsv (rows : List JVal) : String :=
  if rows.all isListRow then
    dfTableCsv (rows.map rowCells)
  else
    csvLine ["0"] ++ String.join (rows.map (fun r => csvLine [csvCellStr r]))

/-- Python `item in container` for the container shapes a value can have;
a non-container raises `TypeError`. -/
def pyContainsKey (k : String) : JVal → Except String Bool
  | .obj fs => .ok (keyMem k fs)
  | .arr xs => .ok ((jarrToList xs).any (fun v => match v with
      | .str s => s = k
      | _ => false))
  | .str s => .ok (pyIn k s)
  | _ => .error "TypeError: argument is not iterable"

/-- Python `container[k]` for a string key. -/
def pyIndex (k : String) : JVal → Except String JVal
  | .obj fs =>
    (match objGet k fs with
     | some v => .ok v
     | none => .error "KeyError")
  | _ => .error "TypeError: indices must be integers"

/-- `all_rows.extend(table)` for one table: the table must be iterable. -/
def extendRows : JVal → Except String (List JVal)
  | .arr xs => .ok (jarrToList xs)
  | .str s => .ok (s.data.map (fun c => JVal.str (String.mk [c])))
  | _ => .error "TypeError: object is not iterable"

/-- Collect `all_rows` from the `tables` value. -/
def collectAllRows : JVal → Except String (List JVal)
  | .arr xs => go (jarrToList xs)
  | .str s => go (s.data.map (fun c => JVal.str (String.mk [c])))
  | _ => .error "TypeError: object is not iterable"
where
  go : List JVal → Except String (List JVal)
    | [] => .ok []
    | t :: ts =>
      match extendRows t, go ts with
      | .ok rs, .ok rest => .ok (rs ++ rest)
      | .error e, _ => .error e
      | _, .error e => .error e

namespace DataExporter

/-- `DataExporter.to_csv`: when `raw_data.tables` exists and yields rows,
flatten those into a frame; otherwise one row from the top-level mapping. -/
def to_csv (data : JVal) : Except String String :=
  match data with
  | .obj d =>
    (match objGet "raw_data" d with
     | some rd =>
       (match pyContainsKey "tables" rd with
        | .error e => .error e
        | .ok true =>
          (match pyIndex "tables" rd with
           | .error e => .error e
           | .ok tables =>
             match collectAllRows tables with
             | .error e => .error e
             | .ok [] => .ok (dfSingleRowCsv d)
             | .ok (r :: rs) => .ok (dfRowsCsv (r :: rs)))
        | .ok false => .ok (dfSingleRowCsv d))
     | none => .ok (dfSingleRowCsv d))
  | _ => .error "TypeError: argument is not a mapping"

end DataExporter

/-! ## `check_robots_txt` (src/api/index.py lines 69-102) -/

/-- The outcome of the HTTP fetch of the policy document. -/
inductive FetchOutcome where
  | ok (status : Nat) (body : String)
  | err (msg : String)

/-- The dictionary `check_robots_txt` returns. -/
structure RobotsCheck where
  compliant : Bool
  reason : Option String
  robots_url : Option String
  content : Option String
  error : Option String
deriving Repr, DecidableEq

/-- `check_robots_txt`, with the fetch of
`{scheme}://{netloc}/robots.txt` supplied as an outcome value. -/
def check_robots_txt (outcome : FetchOutcome) (robots_url_str : String) : RobotsCheck :=
  match outcome with
  | .ok status body =>
    if status = 200 then
      if pyIn "Disallow: /" body then
        { compliant := false
          reason := some "Robots.txt disallows all crawling"
          robots_url := some robots_url_str
          content := none, error := none }
      else
        { compliant := true
          reason := none
          robots_url := some robots_url_str
          content := some (String.mk (body.data.take 500)), error := none }
    else
      { compliant := true
        reason := some "No robots.txt found - assuming allowed"
        robots_url := some robots_url_str
        content := none, error := none }
  | .err e =>
    { compliant := true
      reason := some "Could not check robots.txt - proceeding with caution"
      robots_url := none, content := none, error := some e }

/-- Modelled from the spec: a "blanket disallow-everything directive" is a
robots.txt line whose stripped content is exactly `Disallow: /`.  This is
the spec's wording, stated independently of the code, for the refinement
comparison in C2. -/
def containsBlanketDisallow (body : String) : Bool :=
  (splitSepAux ['\n'] (body.data.length + 1) body.data).any
    (fun line => trimChars line = "Disallow: /".data)

/-! ## `langextract_scrape` (src/api/index.py lines 104-162) -/

/-- The options dict handed to `langextract_scrape`. -/
structure ExtractionOptions where
  structured_extraction : Bool
  schema_enforcement : String
  format : String

/-- The dictionary `langextract_scrape` returns. -/
structure LangResult where
  success : Bool
  data : JVal
  processing_time : JVal
  pages_processed : Nat

/-- The product mock payload. -/
def productsMock : JVal :=
  .obj (.ocons "products" (.arr (jarrOf [
    .obj (.ocons "name" (.str "Sample Product 1") (.ocons "price" (.str "$29.99")
      (.ocons "rating" (.dec false 4 [5]) .onil))),
    .obj (.ocons "name" (.str "Sample Product 2") (.ocons "price" (.str "$39.99")
      (.ocons "rating" (.dec false 4 [2]) .onil))),
    .obj (.ocons "name" (.str "Sample Product 3") (.ocons "price" (.str "$19.99")
      (.ocons "rating" (.dec false 4 [8]) .onil)))])) .onil)

/-- The email mock payload. -/
def emailsMock : JVal :=
  .obj (.ocons "emails" (.arr (jarrOf [
    .str "contact@example.com", .str "support@example.com", .str "info@example.com"])) .onil)

/-- The default mock payload. -/
def defaultMock : JVal :=
  .obj (.ocons "extracted_text" (.str "Sample extracted content based on instruction")
    (.ocons "metadata" (.obj (.ocons "title" (.str "Example Page")
      (.ocons "description" (.str "This is an example page description")
        (.ocons "word_count" (.num 150) .onil)))) .onil))

/-- The entity augmentation added under `structured_extraction`. -/
def entitiesMock : JVal :=
  .obj (.ocons "companies" (.arr (jarrOf [.str "Example Corp", .str "Sample Inc"]))
    (.ocons "people" (.arr (jarrOf [.str "John Doe", .str "Jane Smith"]))
    (.ocons "locations" (.arr (jarrOf [.str "New York", .str "California"]))
    (.ocons "financial_data" (.arr (jarrOf [
      .obj (.ocons "metric" (.str "Revenue") (.ocons "value" (.str "$1.2M")
        (.ocons "period" (.str "Q1 2024") .onil))),
      .obj (.ocons "metric" (.str "Growth") (.ocons "value" (.str "15%")
        (.ocons "period" (.str "YoY") .onil)))])) .onil))))

/-- Set a key on a dict-valued `JVal` (Python `d[k] = v`). -/
def jvalSet (v : JVal) (k : String) (x : JVal) : JVal :=
  match v with
  | .obj fs => .obj (objSet fs k x)
  | other => other

/-- `langextract_scrape`: the mock extraction.  No network access and no
page fetch occur; the result depends only on keywords of the lowered
instruction and the `structured_extraction` option. -/
def langextract_scrape (url : String) (instruction : String)
    (options : ExtractionOptions) : LangResult :=
  let instr := String.mk (lowerChars instruction.data)
  let mock0 :=
    if pyIn "product" instr && pyIn "price" instr then productsMock
    else if pyIn "email" instr then emailsMock
    else defaultMock
  let mock1 :=
    if options.structured_extraction then
      jvalSet (jvalSet (jvalSet mock0 "entities" entitiesMock)
        "entity_count" (.num 6)) "accuracy" (.str "99.9%")
    else mock0
  { success := true, data := mock1
    processing_time := .dec false 1 [1], pages_processed := 1 }

/-! ## `extract_data` (src/api/index.py lines 181-236) -/

/-- The request model of the `/v1/extract` endpoint. -/
structure ScrapeRequest where
  url : String
  instruction : String
  format : String := "json"
  webhook_url : Option String := none
  structured_extraction : Bool := false
  schema_enforcement : String := "loose"
  visualization : Option String := none

/-- A stored extraction job record of `jobs_db`. -/
structure ExtractJob where
  job_id : String
  status : String
  url : String
  instruction : String
  format : String
  structured_extraction : Bool
  data : JVal
  structured_data : Bool
  entities : Option JVal
  accuracy : Option JVal
  created_at : String
  completed_at : String
  compliance : RobotsCheck
  dashboard_url : Option String := none
  r_code_url : Option String := none

/-- Python `.get` on the dict-valued result data. -/
def jvalGet (v : JVal) (k : String) : Option JVal :=
  match v with
  | .obj fs => objGet k fs
  | _ => none

/-- What one call of `extract_data` produces: the HTTP response (an error
status and detail, or the job), the resulting `jobs_db`, and whether the
extraction call was reached. -/
structure ExtractOutcome where
  response : Except (Nat × String) ExtractJob
  db : List (String × ExtractJob)
  scrape_attempted : Bool

/-- `extract_data`: compliance check, mock extraction, job storage.  The
robots fetch outcome and the clock are passed in; the generated job id is
`extract_{timestamp}_{len(jobs_db)}`. -/
def extract_data (req : ScrapeRequest) (robotsOutcome : FetchOutcome)
    (robots_url_str : String) (now : String)
    (jobs_db : List (String × ExtractJob)) : ExtractOutcome :=
  let job_id := "extract_" ++ now ++ "_" ++ String.mk (natChars jobs_db.length)
  let robots_check := check_robots_txt robotsOutcome robots_url_str
  if robots_check.compliant = false then
    { response := .error (400, "Robots.txt compliance issue: "
        ++ robots_check.reason.getD "")
      db := jobs_db
      scrape_attempted := false }
  else
    let result := langextract_scrape req.url req.instruction
      { structured_extraction := req.structured_extraction
        schema_enforcement := req.schema_enforcement
        format := req.format }
    if result.success = false then
      { response := .error (500, "")
        db := jobs_db
        scrape_attempted := true }
    else
      let job : ExtractJob :=
        { job_id := job_id
          status := "completed"
          url := req.url
          instruction := req.instruction
          format := req.format
          structured_extraction := req.structured_extraction
          data := result.data
          structured_data := req.structured_extraction
          entities := jvalGet result.data "entity_count"
          accuracy := jvalGet result.data "accuracy"
          created_at := now
          completed_at := now
          compliance := robots_check
          dashboard_url := if req.format = "r_dashboard"
            then some ("https://dash.skyscraper.bot/" ++ job_id) else none
          r_code_url := if req.format = "r_dashboard"
            then some ("https://api.skyscraper.bot/r/" ++ job_id ++ ".R") else none }
      { response := .ok job
        db := jobs_db ++ [(job_id, job)]
        scrape_attempted := true }

/-! ## `SkyscraperEngine.scrape_with_playwright` (src/main.py lines 131-224)

The browser world is supplied as an outcome: either the loaded page (its
HTML plus the DOM facts the `page.evaluate` script reads) or a navigation
exception. -/

/-- An anchor element as the page script sees it. -/
structure Anchor where
  text : String
  href : String

/-- An image element. -/
structure ImageEl where
  src : String
  alt : String

/-- An input descriptor of a form. -/
structure InputEl where
  name : String
  itype : String
  placeholder : String

/-- A form element. -/
structure FormEl where
  action : String
  method : String
  inputs : List InputEl

/-- The DOM facts the `page.evaluate` script reads. -/
structure Page where
  title : String
  bodyText : String
  anchors : List Anchor
  images : List ImageEl
  tables : List (List (List String))
  forms : List FormEl
  h1 : List String
  h2 : List String
  h3 : List String

/-- A link entry of the structured data. -/
structure LinkData where
  text : String
  href : String
deriving DecidableEq

/-- The object returned by the `page.evaluate` script. -/
structure PageData where
  title : String
  text : String
  links : List LinkData
  images : List (String × String)
  tables : List (List (List String))
  forms : List (String × String × List (String × String × String))
  h1 : List String
  h2 : List String
  h3 : List String

/-- The `page.evaluate` script of `scrape_with_playwright`: maps every
anchor (trimmed text, resolved href) and keeps those with nonempty text
and href, maps every image, every table row's trimmed cells, every form,
and the trimmed h1/h2/h3 headings. -/
def pageEvaluate (p : Page) : PageData :=
  { title := p.title
    text := p.bodyText
    links := (p.anchors.map (fun a => LinkData.mk (pyStrip a.text) a.href)).filter
      (fun l => l.text != "" && l.href != "")
    images := p.images.map (fun im => (im.src, im.alt))
    tables := p.tables.map (fun t => t.map (fun row => row.map pyStrip))
    forms := p.forms.map (fun f => (f.action, f.method,
      f.inputs.map (fun i => (i.name, i.itype, i.placeholder))))
    h1 := p.h1.map pyStrip
    h2 := p.h2.map pyStrip
    h3 := p.h3.map pyStrip }

/-- The outcome of an effectful step: a value or a raised exception. -/
inductive Outcome (α : Type) where
  | ok (a : α)
  | exn (msg : String)

/-- The dictionary `scrape_with_playwright` returns on success. -/
structure ScrapedData where
  success : Bool
  url : String
  raw_html : String
  structured_data : PageData
  timestamp : String

/-- `scrape_with_playwright`: on navigation failure the exception is
re-raised as `Scraping failed: ...`; on success the page is evaluated. -/
def scrape_with_playwright (url : String) (anti_detection : Bool)
    (nav : Outcome (String × Page)) (now : String) : Outcome ScrapedData :=
  match nav with
  | .ok (content, page) =>
    .ok { success := true, url := url, raw_html := content
          structured_data := pageEvaluate page, timestamp := now }
  | .exn e => .exn ("Scraping failed: " ++ e)

/-! ## `SkyscraperEngine.process_with_gemini` (src/main.py lines 226-263) -/

/-- The structured data as the JSON value embedded in fallback results. -/
def pageDataToJVal (pd : PageData) : JVal :=
  .obj (.ocons "title" (.str pd.title)
    (.ocons "text" (.str pd.text)
    (.ocons "links" (.arr (jarrOf (pd.links.map (fun l =>
        .obj (.ocons "text" (.str l.text) (.ocons "href" (.str l.href) .onil))))))
    (.ocons "images" (.arr (jarrOf (pd.images.map (fun im =>
        .obj (.ocons "src" (.str im.1) (.ocons "alt" (.str im.2) .onil))))))
    (.ocons "tables" (.arr (jarrOf (pd.tables.map (fun t =>
        .arr (jarrOf (t.map (fun row => .arr (jarrOf (row.map JVal.str)))))))))
    (.ocons "forms" (.arr (jarrOf (pd.forms.map (fun f =>
        .obj (.ocons "action" (.str f.1) (.ocons "method" (.str f.2.1)
          (.ocons "inputs" (.arr (jarrOf (f.2.2.map (fun i =>
            .obj (.ocons "name" (.str i.1) (.ocons "type" (.str i.2.1)
              (.ocons "placeholder" (.str i.2.2) .onil))))))) .onil)))))))
    (.ocons "headings" (.obj (.ocons "h1" (.arr (jarrOf (pd.h1.map JVal.str)))
        (.ocons "h2" (.arr (jarrOf (pd.h2.map JVal.str)))
        (.ocons "h3" (.arr (jarrOf (pd.h3.map JVal.str))) .onil))))
      .onil)))))))

/-- The fallback result of the semantic stage: the raw response text under
`ai_extracted_data` together with the structured data under `raw_data`. -/
def geminiFallback (ai_response : String) (d : ScrapedData) : JVal :=
  .obj (.ocons "ai_extracted_data" (.str ai_response)
    (.ocons "raw_data" (pageDataToJVal d.structured_data) .onil))

/-- `process_with_gemini`: a service error is caught and returned as an
error record; a response with a parseable ```json fence returns the parsed
payload; anything else returns the fallback.  The function never raises. -/
def process_with_gemini (d : ScrapedData) (instruction : String) :
    Outcome String → JVal
  | .exn e =>
    .obj (.ocons "error" (.str e)
      (.ocons "raw_data" (pageDataToJVal d.structured_data) .onil))
  | .ok ai_response =>
    if pyIn "```json" ai_response then
      let json_part := ((pySplit ai_response "```json").getD 1 "")
      let json_part := ((pySplit json_part "```").headD "")
      match loads json_part with
      | some v => v
      | none => geminiFallback ai_response d
    else geminiFallback ai_response d

/-! ## `LangExtractProcessor.extract_metadata` (src/main.py lines 92-124) -/

/-- `extract_metadata`: strips the response, removes a code fence, parses
JSON; every failure (service error or parse error) is caught and returned
as an error record with confidence 1. -/
def extract_metadata (content url : String) (service : Outcome String) : JVal :=
  match service with
  | .exn e =>
    .obj (.ocons "error" (.str e) (.ocons "extraction_confidence" (.num 1) .onil))
  | .ok txt =>
    let mj := pyStrip txt
    let mj :=
      if pyIn "```json" mj then
        ((pySplit ((pySplit mj "```json").getD 1 "") "```").headD "")
      else if pyIn "```" mj then
        ((pySplit mj "```").getD 1 "")
      else mj
    match loads mj with
    | some v => v
    | none =>
      .obj (.ocons "error" (.str "Expecting value")
        (.ocons "extraction_confidence" (.num 1) .onil))

/-! ## `scrape_endpoint` and `process_scraping_job` (src/main.py lines 386-462) -/

/-- The request model of the `/api/scrape` endpoint. -/
structure ScrapingRequest where
  url : String
  instruction : String
  format : String := "json"
  anti_detection : Bool := true
  extract_metadata : Bool := true
  language : Option String := some "auto"

/-- A rendered export artifact. -/
inductive Artifact where
  | text (s : String)
  | xmlTree (t : XNode)

/-- A record of `jobs_storage`. -/
structure JobRecord where
  status : String
  user_id : Option String := none
  request : Option ScrapingRequest := none
  created_at : Option String := none
  data : Option JVal := none
  metadata : Option JVal := none
  exports : List (String × Artifact) := []
  error : Option String := none
  completed_at : Option String := none
  failed_at : Option String := none

/-- The job record `scrape_endpoint` stores before scheduling the
background task: status `processing`. -/
def scrape_endpoint_init (userSub : String) (req : ScrapingRequest)
    (now : String) : JobRecord :=
  { status := "processing", user_id := some userSub
    request := some req, created_at := some now }

/-- `DataExporter.to_r_dashboard` (src/main.py lines 311-383): a fixed R
script template with the JSON rendering of the data substituted into its
data slot.  The surrounding template text is abridged to its slot
structure. -/
def to_r_dashboard (data : JVal) : String :=
  "# SkyScraper.bot Generated R Dashboard\nscraped_data <- '"
    ++ DataExporter.to_json data ++ "'\n"

/-- The effectful world one run of the background task sees. -/
structure PipelineWorld where
  nav : Outcome (String × Page)
  gemini : Outcome String
  metaService : Outcome String
  now : String

/-- `process_scraping_job`: scrape, semantic extraction, optional metadata
extraction, export rendering; on any raised exception the record is
updated to `failed`, otherwise to `completed`. -/
def process_scraping_job (job : JobRecord) (req : ScrapingRequest)
    (w : PipelineWorld) : JobRecord :=
  match scrape_with_playwright req.url req.anti_detection w.nav w.now with
  | .exn e => { job with status := "failed", error := some e, failed_at := some w.now }
  | .ok scraped =>
    let processed := process_with_gemini scraped req.instruction w.gemini
    let md : JVal :=
      if req.extract_metadata then
        extract_metadata scraped.structured_data.text req.url w.metaService
      else .obj .onil
    let exportsE : Except String (List (String × Artifact)) :=
      if req.format = "csv" then
        (DataExporter.to_csv processed).map (fun s => [("csv", .text s)])
      else if req.format = "xml" then
        (DataExporter.to_xml processed).map (fun t => [("xml", .xmlTree t)])
      else if req.format = "r_dashboard" then
        .ok [("r_dashboard", .text (to_r_dashboard processed))]
      else .ok [("json", .text (DataExporter.to_json processed))]
    match exportsE with
    | .error e => { job with status := "failed", error := some e, failed_at := some w.now }
    | .ok ex =>
      { job with status := "completed", data := some processed
                 metadata := some md, exports := ex, completed_at := some w.now }

/-- The observable status history of one job in `jobs_storage`: its status
at creation and its status after the background task ran. -/
def jobStatusTrace (userSub : String) (req : ScrapingRequest) (now : String)
    (w : PipelineWorld) : List String :=
  let created := scrape_endpoint_init userSub req now
  [created.status, (process_scraping_job created req w).status]

/-! ## Claim theorems -/

/-- A fixed page with no content, for concrete pipeline runs. -/
def cPage : Page :=
  { title := "T", bodyText := "hello world", anchors := [], images := []
    tables := [], forms := [], h1 := [], h2 := [], h3 := [] }

/-- A fixed scraping request with metadata extraction off and json format. -/
def cReq : ScrapingRequest :=
  { url := "https://example.com", instruction := "extract titles"
    format := "json", anti_detection := true, extract_metadata := false
    language := some "auto" }

/-- Status of the background task is terminal: `completed` or `failed`. -/
theorem process_scraping_job_status (job : JobRecord) (req : ScrapingRequest)
    (w : PipelineWorld) :
    (process_scraping_job job req w).status = "completed"
    ∨ (process_scraping_job job req w).status = "failed" := by
  unfold process_scraping_job
  cases scrape_with_playwright req.url req.anti_detection w.nav w.now with
  | exn e => right; rfl
  | ok scraped =>
    simp only []
    split
    · right; rfl
    · left; rfl

/-- C1: the claim that job status takes only the values
queued/running/completed/failed fails on the code: `scrape_endpoint`
creates every record with status `processing`, which is none of the four. -/
theorem C1_status_values_counterexample :
    (scrape_endpoint_init "user-sub" cReq "20240101_000000").status = "processing"
    ∧ "processing" ∉ (["queued", "running", "completed", "failed"] : List String) := by
  exact ⟨rfl, by decide⟩

/-- C1 (amended): in `src/main.py` every job record is created with status
`processing` and is updated exactly once, to `completed` or to `failed`;
in `src/api/index.py` a job record is only ever stored already in status
`completed` (and the stored db otherwise unchanged). -/
theorem C1_status_lifecycle (userSub : String) (req : ScrapingRequest)
    (now : String) (w : PipelineWorld) (ereq : ScrapeRequest)
    (ro : FetchOutcome) (ru rnow : String) (db : List (String × ExtractJob)) :
    (∃ t, jobStatusTrace userSub req now w = ["processing", t]
      ∧ (t = "completed" ∨ t = "failed"))
    ∧ (∀ j, (extract_data ereq ro ru rnow db).response = .ok j → j.status = "completed")
    ∧ ((extract_data ereq ro ru rnow db).db = db
      ∨ ∃ jid j, (extract_data ereq ro ru rnow db).db = db ++ [(jid, j)]
          ∧ j.status = "completed") := by
  refine ⟨⟨(process_scraping_job (scrape_endpoint_init userSub req now) req w).status,
    rfl, process_scraping_job_status _ _ _⟩, ?_, ?_⟩
  · intro j hj
    unfold extract_data at hj
    simp only [] at hj
    split at hj
    · exact absurd hj (by simp)
    · split at hj
      · exact absurd hj (by simp)
      · rw [Except.ok.injEq] at hj
        rw [← hj]
  · unfold extract_data
    simp only []
    split
    · left; rfl
    · split
      · left; rfl
      · right
        exact ⟨_, _, rfl, rfl⟩

/-- C1 witness: the lifecycle theorem at a concrete run. -/
theorem C1_status_lifecycle_witness :
    (∃ t, jobStatusTrace "u" cReq "t0"
        { nav := .ok ("<html></html>", cPage), gemini := .ok "resp"
          metaService := .ok "", now := "t1" } = ["processing", t]
      ∧ (t = "completed" ∨ t = "failed"))
    ∧ (∀ j, (extract_data { url := "https://a.example", instruction := "i" }
          (.ok 404 "") "https://a.example/robots.txt" "n" []).response = .ok j →
        j.status = "completed")
    ∧ (((extract_data { url := "https://a.example", instruction := "i" }
          (.ok 404 "") "https://a.example/robots.txt" "n" []).db = [])
      ∨ ∃ jid j, (extract_data { url := "https://a.example", instruction := "i" }
          (.ok 404 "") "https://a.example/robots.txt" "n" []).db = [] ++ [(jid, j)]
          ∧ j.status = "completed") :=
  C1_status_lifecycle "u" cReq "t0"
    { nav := .ok ("<html></html>", cPage), gemini := .ok "resp"
      metaService := .ok "", now := "t1" }
    { url := "https://a.example", instruction := "i" }
    (.ok 404 "") "https://a.example/robots.txt" "n" []

/-- C2: the claim that `allowed=false` holds exactly when the policy
content contains a blanket disallow-everything directive fails on the
code: `check_robots_txt` tests `"Disallow: /" in content` as a substring,
so a robots.txt that only disallows `/admin` is judged not compliant even
though it contains no blanket-disallow line. -/
theorem C2_compliance_counterexample :
    (check_robots_txt (.ok 200 "User-agent: *\nDisallow: /admin")
        "https://example.com/robots.txt").compliant = false
    ∧ containsBlanketDisallow "User-agent: *\nDisallow: /admin" = false := by
  exact ⟨rfl, by decide⟩

/-- C2 (amended): `compliant=false` holds exactly when the document was
fetched with status 200 and its content contains the substring
`Disallow: /` (which also matches path-specific directives); a non-200
status and a fetch failure yield `compliant=true` with the reason
recorded, while other 200 content yields `compliant=true` with a content
excerpt and no reason. -/
theorem C2_compliance_rule (outcome : FetchOutcome) (u : String) :
    ((check_robots_txt outcome u).compliant = false ↔
      ∃ body, outcome = .ok 200 body ∧ pyIn "Disallow: /" body = true)
    ∧ (∀ s body, outcome = .ok s body → s ≠ 200 →
        (check_robots_txt outcome u).reason
          = some "No robots.txt found - assuming allowed")
    ∧ (∀ s body, outcome = .ok s body → s = 200 → pyIn "Disallow: /" body = false →
        (check_robots_txt outcome u).reason = none
        ∧ (check_robots_txt outcome u).content
            = some (String.mk (body.data.take 500)))
    ∧ (∀ e, outcome = .err e →
        (check_robots_txt outcome u).reason
          = some "Could not check robots.txt - proceeding with caution") := by
  refine ⟨?_, ?_, ?_, ?_⟩
  · constructor
    · intro h
      cases outcome with
      | err e => simp [check_robots_txt] at h
      | ok s body =>
        by_cases hs : s = 200
        · subst hs
          by_cases hd : pyIn "Disallow: /" body = true
          · exact ⟨body, rfl, hd⟩
          · rw [check_robots_txt, if_pos rfl, if_neg hd] at h
            simp at h
        · rw [check_robots_txt, if_neg hs] at h
          simp at h
    · rintro ⟨body, rfl, hd⟩
      rw [check_robots_txt, if_pos rfl, if_pos hd]
  · rintro s body rfl hs
    rw [check_robots_txt, if_neg hs]
  · rintro s body rfl rfl hd
    rw [check_robots_txt, if_pos rfl, if_neg (by rw [hd]; intro h; exact absurd h (by simp))]
    exact ⟨rfl, rfl⟩
  · rintro e rfl
    rfl

/-- C2 witness: the rule applied at concrete fetch outcomes. -/
theorem C2_compliance_rule_witness :
    ((check_robots_txt (.ok 200 "User-agent: *\nDisallow: /") "u").compliant = false
      ↔ ∃ body, (FetchOutcome.ok 200 "User-agent: *\nDisallow: /") = .ok 200 body
          ∧ pyIn "Disallow: /" body = true)
    ∧ (check_robots_txt (.ok 404 "") "u").reason
        = some "No robots.txt found - assuming allowed"
    ∧ (check_robots_txt (.err "timeout") "u").reason
        = some "Could not check robots.txt - proceeding with caution" :=
  ⟨(C2_compliance_rule (.ok 200 "User-agent: *\nDisallow: /") "u").1,
   (C2_compliance_rule (.ok 404 "") "u").2.1 404 "" rfl (by decide),
   (C2_compliance_rule (.err "timeout") "u").2.2.2 "timeout" rfl⟩

/-- C3: the claim that an external reasoning-service error aborts the
pipeline fails on the code: `process_with_gemini` catches the exception
and returns an error record, and the job still reaches `completed`.  Here
the service raises, yet the final status is `completed`, not `failed`. -/
theorem C3_service_error_counterexample :
    ({ nav := .ok ("<html></html>", cPage), gemini := .exn "503 Service Unavailable"
       metaService := .ok "", now := "t1" } : PipelineWorld).gemini
        = .exn "503 Service Unavailable"
    ∧ (process_scraping_job (scrape_endpoint_init "u" cReq "t0") cReq
        { nav := .ok ("<html></html>", cPage), gemini := .exn "503 Service Unavailable"
          metaService := .ok "", now := "t1" }).status = "completed"
    ∧ (process_scraping_job (scrape_endpoint_init "u" cReq "t0") cReq
        { nav := .ok ("<html></html>", cPage), gemini := .exn "503 Service Unavailable"
          metaService := .ok "", now := "t1" }).status ≠ "failed" := by
  exact ⟨rfl, rfl, by decide⟩

/-- C3 (amended): a reasoning-service error is caught inside the semantic
stage, which returns an error record wrapping the raw structured data;
the pipeline is not aborted, and with the default `json` format the job
ends `completed`, with the gemini error recorded inside `data` rather
than on the job's error field. -/
theorem C3_service_error_degrades (job : JobRecord) (req : ScrapingRequest)
    (w : PipelineWorld) (scr : ScrapedData) (e : String)
    (hnav : scrape_with_playwright req.url req.anti_detection w.nav w.now = .ok scr)
    (hg : w.gemini = .exn e) (hfmt : req.format = "json") :
    process_with_gemini scr req.instruction w.gemini
      = .obj (.ocons "error" (.str e)
          (.ocons "raw_data" (pageDataToJVal scr.structured_data) .onil))
    ∧ (process_scraping_job job req w).status = "completed" := by
  constructor
  · rw [hg]
    rfl
  · unfold process_scraping_job
    rw [hnav]
    simp only []
    rw [hfmt]
    rfl

/-- C3 witness: the degradation theorem at a concrete run. -/
theorem C3_service_error_degrades_witness :
    process_with_gemini
        { success := true, url := "https://example.com", raw_html := "<html></html>"
          structured_data := pageEvaluate cPage, timestamp := "t1" }
        cReq.instruction (Outcome.exn "boom")
      = .obj (.ocons "error" (.str "boom")
          (.ocons "raw_data" (pageDataToJVal (pageEvaluate cPage)) .onil))
    ∧ (process_scraping_job (scrape_endpoint_init "u" cReq "t0") cReq
        { nav := .ok ("<html></html>", cPage), gemini := .exn "boom"
          metaService := .ok "", now := "t1" }).status = "completed" :=
  C3_service_error_degrades (scrape_endpoint_init "u" cReq "t0") cReq
    { nav := .ok ("<html></html>", cPage), gemini := .exn "boom"
      metaService := .ok "", now := "t1" }
    { success := true, url := "https://example.com", raw_html := "<html></html>"
      structured_data := pageEvaluate cPage, timestamp := "t1" }
    "boom" rfl rfl rfl

/-- A page with 101 non-empty anchors. -/
def manyLinksPage : Page :=
  { title := "t", bodyText := "b"
    anchors := List.replicate 101 { text := "x", href := "https://example.com/x" }
    images := [], tables := [], forms := [], h1 := [], h2 := [], h3 := [] }

/-- C4: the claim that the structural parse caps its collections (links
at 100, and the rest) fails on the code: the `page.evaluate` script
applies no truncation, so a page with 101 anchors yields 101 links. -/
theorem C4_caps_counterexample :
    (pageEvaluate manyLinksPage).links.length = 101
    ∧ ¬ (pageEvaluate manyLinksPage).links.length ≤ 100 := by
  have h : (pageEvaluate manyLinksPage).links.length = 101 := by decide
  exact ⟨h, by omega⟩

/-- C4 (amended): the structural parse applies no caps: all anchors that
survive the nonempty-text-and-href filter, all images, all tables with
all their rows, and all forms are kept, in document order, with no
truncation (and no `lists` collection is produced at all). -/
theorem C4_no_caps (p : Page) :
    (pageEvaluate p).links
      = (p.anchors.map (fun a => LinkData.mk (pyStrip a.text) a.href)).filter
          (fun l => l.text != "" && l.href != "")
    ∧ (pageEvaluate p).links.length ≤ p.anchors.length
    ∧ (pageEvaluate p).images.length = p.images.length
    ∧ (pageEvaluate p).tables.length = p.tables.length
    ∧ (∀ i (h : i < p.tables.length),
        ((pageEvaluate p).tables.get ⟨i, by simpa [pageEvaluate] using h⟩).length
          = (p.tables.get ⟨i, h⟩).length)
    ∧ (pageEvaluate p).forms.length = p.forms.length := by
  refine ⟨rfl, ?_, by simp [pageEvaluate], by simp [pageEvaluate], ?_, by simp [pageEvaluate]⟩
  · calc (pageEvaluate p).links.length
        ≤ (p.anchors.map (fun a => LinkData.mk (pyStrip a.text) a.href)).length :=
          List.length_filter_le _ _
      _ = p.anchors.length := List.length_map _ _
  · intro i h
    simp [pageEvaluate]

/-- C4 witness: the no-caps theorem evaluated at the 101-anchor page. -/
theorem C4_no_caps_witness :
    (∀ i (h : i < manyLinksPage.tables.length),
        ((pageEvaluate manyLinksPage).tables.get
            ⟨i, by simpa [pageEvaluate] using h⟩).length
          = (manyLinksPage.tables.get ⟨i, h⟩).length)
    ∧ (pageEvaluate manyLinksPage).links.length ≤ manyLinksPage.anchors.length :=
  ⟨(C4_no_caps manyLinksPage).2.2.2.2.1, (C4_no_caps manyLinksPage).2.1⟩

/-- C5: the claim that a disallowed submission leaves a `failed` job
record with stage `compliance` fails on the code: `extract_data` raises
HTTP 400 before any record is stored, so `jobs_db` stays empty, no
verdict is retained on any record, and the extraction call is never
reached. -/
theorem C5_compliance_counterexample :
    (extract_data { url := "https://blocked.example", instruction := "extract prices" }
        (.ok 200 "User-agent: *\nDisallow: /")
        "https://blocked.example/robots.txt" "20240101" []).db = []
    ∧ (extract_data { url := "https://blocked.example", instruction := "extract prices" }
        (.ok 200 "User-agent: *\nDisallow: /")
        "https://blocked.example/robots.txt" "20240101" []).response
      = .error (400, "Robots.txt compliance issue: Robots.txt disallows all crawling")
    ∧ (extract_data { url := "https://blocked.example", instruction := "extract prices" }
        (.ok 200 "User-agent: *\nDisallow: /")
        "https://blocked.example/robots.txt" "20240101" []).scrape_attempted = false := by
  exact ⟨rfl, rfl, rfl⟩

/-- C5 (amended): on a non-compliant verdict the request is rejected with
HTTP 400 whose detail names the robots reason; no job record is created
(the db is unchanged, so no verdict is retained on any record) and the
extraction call is not attempted. -/
theorem C5_compliance_rejects (req : ScrapeRequest) (ro : FetchOutcome)
    (ru now : String) (db : List (String × ExtractJob))
    (h : (check_robots_txt ro ru).compliant = false) :
    (extract_data req ro ru now db).response
      = .error (400, "Robots.txt compliance issue: "
          ++ (check_robots_txt ro ru).reason.getD "")
    ∧ (extract_data req ro ru now db).db = db
    ∧ (extract_data req ro ru now db).scrape_attempted = false := by
  unfold extract_data
  simp only []
  rw [if_pos h]
  exact ⟨rfl, rfl, rfl⟩

/-- C5 witness: the rejection theorem at a concrete blocked fetch. -/
theorem C5_compliance_rejects_witness :
    (check_robots_txt (.ok 200 "Disallow: /") "https://b.example/robots.txt").compliant = false
    ∧ ((extract_data { url := "https://b.example", instruction := "i" }
          (.ok 200 "Disallow: /") "https://b.example/robots.txt" "n" []).response
        = .error (400, "Robots.txt compliance issue: "
            ++ ((check_robots_txt (.ok 200 "Disallow: /")
                "https://b.example/robots.txt").reason.getD ""))
      ∧ (extract_data { url := "https://b.example", instruction := "i" }
          (.ok 200 "Disallow: /") "https://b.example/robots.txt" "n" []).db = []
      ∧ (extract_data { url := "https://b.example", instruction := "i" }
          (.ok 200 "Disallow: /") "https://b.example/robots.txt" "n" []).scrape_attempted
          = false) :=
  ⟨by rfl, C5_compliance_rejects { url := "https://b.example", instruction := "i" }
      (.ok 200 "Disallow: /") "https://b.example/robots.txt" "n" [] (by rfl)⟩

/-- C6: the JSON export round-trips: parsing the rendered artifact yields
the original well-formed result, and re-rendering the parsed value yields
the identical artifact. -/
theorem C6_json_round_trip (x : JVal) (h : wfV x = true) :
    loads (DataExporter.to_json x) = some x
    ∧ (loads (DataExporter.to_json x)).map DataExporter.to_json
        = some (DataExporter.to_json x) := by
  have h1 := loads_to_json h
  exact ⟨h1, by rw [h1]; rfl⟩

/-- A representative extraction result: nested objects, arrays, strings
with escapes, integers, a decimal and the constants. -/
def c6Sample : JVal :=
  .obj (.ocons "a" (.num 1)
    (.ocons "b" (.arr (.cons (.num (-7)) (.cons (.str "x") .nil)))
    (.ocons "c" (.obj (.ocons "d" (.bool true) (.ocons "e" .null .onil)))
    (.ocons "f" (.dec false 4 [5])
    (.ocons "g" (.str (String.mk ['q', '"', '\\', '\n', Char.ofNat 7, 'z'])) .onil)))))

set_option maxRecDepth 40000 in
/-- C6 witness: the round trip evaluated at the representative result. -/
theorem C6_json_round_trip_witness :
    wfV c6Sample = true
    ∧ (loads (DataExporter.to_json c6Sample) = some c6Sample
      ∧ (loads (DataExporter.to_json c6Sample)).map DataExporter.to_json
          = some (DataExporter.to_json c6Sample)) :=
  ⟨by rfl, C6_json_round_trip c6Sample (by rfl)⟩

/-- Does the top level of a result carry any boolean-valued field? -/
def hasBoolField : JObj → Bool
  | .onil => false
  | .ocons _ (.bool _) _ => true
  | .ocons _ _ tl => hasBoolField tl

/-- Top-level keys of a result. -/
def topKeys : JVal → List String
  | .obj fs => objKeys fs
  | _ => []

/-- Whether a result has a top-level boolean field (the natural reading
of "a flag"). -/
def topHasBoolField : JVal → Bool
  | .obj fs => hasBoolField fs
  | _ => false

/-- A fixed successful scrape of the fixed page. -/
def cScraped : ScrapedData :=
  { success := true, url := "https://example.com", raw_html := "<html></html>"
    structured_data := pageEvaluate cPage, timestamp := "t1" }

/-- C7: the claim that the fallback result carries a flag indicating that
structured parsing failed fails on the code: the fallback is exactly
`{"ai_extracted_data": raw, "raw_data": ...}` — its only keys are those
two and no boolean-valued field exists, so no flag is present. -/
theorem C7_no_flag_counterexample :
    process_with_gemini cScraped "extract" (.ok "plain text, no JSON")
      = geminiFallback "plain text, no JSON" cScraped
    ∧ topKeys (process_with_gemini cScraped "extract" (.ok "plain text, no JSON"))
        = ["ai_extracted_data", "raw_data"]
    ∧ topHasBoolField (process_with_gemini cScraped "extract" (.ok "plain text, no JSON"))
        = false := by
  exact ⟨rfl, rfl, rfl⟩

/-- C7 (amended): whenever the service response has no parseable fenced
JSON payload, the stage returns the fallback wrapping the raw response
text under `ai_extracted_data` together with the raw structured data
under `raw_data` — with no explicit failure flag — and the pipeline is
not aborted: with the `json` format the job still ends `completed`. -/
theorem C7_fallback_wraps_raw (d : ScrapedData) (instr resp : String)
    (h : pyIn "```json" resp = false ∨
      loads ((pySplit ((pySplit resp "```json").getD 1 "") "```").headD "") = none) :
    process_with_gemini d instr (.ok resp) = geminiFallback resp d
    ∧ topKeys (geminiFallback resp d) = ["ai_extracted_data", "raw_data"]
    ∧ topHasBoolField (geminiFallback resp d) = false
    ∧ (∀ (job : JobRecord) (req : ScrapingRequest) (w : PipelineWorld)
        (scr : ScrapedData),
        scrape_with_playwright req.url req.anti_detection w.nav w.now = .ok scr →
        req.format = "json" →
        (process_scraping_job job req w).status = "completed") := by
  refine ⟨?_, rfl, rfl, ?_⟩
  · rw [process_with_gemini]
    by_cases hb : pyIn "```json" resp = true
    · rcases h with h | h
      · rw [hb] at h
        exact absurd h (by simp)
      · rw [if_pos hb]
        simp only []
        rw [h]
    · rw [if_neg hb]
  · intro job req w scr hnav hfmt
    unfold process_scraping_job
    rw [hnav]
    simp only []
    rw [hfmt]
    rfl

/-- C7 witness: the fallback theorem at a concrete unparseable response. -/
theorem C7_fallback_wraps_raw_witness :
    process_with_gemini cScraped "extract" (.ok "```json not json ```")
        = geminiFallback "```json not json ```" cScraped
    ∧ topKeys (geminiFallback "```json not json ```" cScraped)
        = ["ai_extracted_data", "raw_data"]
    ∧ topHasBoolField (geminiFallback "```json not json ```" cScraped) = false :=
  have h := C7_fallback_wraps_raw cScraped "extract" "```json not json ```"
    (Or.inr (by rfl))
  ⟨h.1, h.2.1, h.2.2.1⟩

/-- C8: the claim that mapping keys become element names with spaces
replaced fails on the code: `dict_to_xml` uses `str(key)` verbatim, so
the key `a b` yields an element whose name still contains the space. -/
theorem C8_xml_counterexample :
    DataExporter.to_xml (.obj (.ocons "a b" (.num 1) .onil))
      = .ok (.elem "scraped_data" none [.elem "a b" (some "1") []])
    ∧ "a b".data.contains ' ' = true := by
  exact ⟨rfl, by decide⟩

/-- Scalar values: neither a mapping nor a list. -/
def isScalarJ : JVal → Bool
  | .obj _ => false
  | .arr _ => false
  | _ => true

/-- The tag of the child built for a key is the key, verbatim. -/
theorem xmlChild_tag (k : String) (v : JVal) : (xmlChild k v).tag = k := by
  cases v <;> rfl

/-- The children built for a mapping carry its keys, in order. -/
theorem dictToXml_tags : ∀ fs : JObj, (dictToXml fs).map XNode.tag = objKeys fs := by
  intro fs
  match fs with
  | .onil => rfl
  | .ocons k v tl =>
    simp only [dictToXml, objKeys, List.map_cons, xmlChild_tag, dictToXml_tags tl]

/-- Every child built for a list element is tagged `item`. -/
theorem xmlItems_tags : ∀ xs : JArr,
    (xmlItems xs).map XNode.tag = List.replicate (jarrToList xs).length "item" := by
  intro xs
  match xs with
  | .nil => rfl
  | .cons item tl =>
    have ih := xmlItems_tags tl
    cases item <;>
      simp [xmlItems, jarrToList, List.replicate_succ, ih, XNode.tag]

/-- C8 (amended): each mapping key becomes the element name verbatim (no
sanitisation), at every nesting depth; each list element becomes a child
named `item` (mappings recursively, other values via their string form);
and each scalar value becomes element text via `str`.  The root element
is `scraped_data`. -/
theorem C8_xml_structure :
    (∀ fs : JObj, (dictToXml fs).map XNode.tag = objKeys fs)
    ∧ (∀ xs : JArr, (xmlItems xs).map XNode.tag
        = List.replicate (jarrToList xs).length "item")
    ∧ (∀ (k : String) (v : JVal), isScalarJ v = true →
        xmlChild k v = .elem k (some (pyStr v)) [])
    ∧ (∀ (k : String) (fs : JObj), xmlChild k (.obj fs) = .elem k none (dictToXml fs))
    ∧ (∀ (k : String) (xs : JArr), xmlChild k (.arr xs) = .elem k none (xmlItems xs))
    ∧ (∀ d : JObj, DataExporter.to_xml (.obj d)
        = .ok (.elem "scraped_data" none (dictToXml d))) := by
  refine ⟨dictToXml_tags, xmlItems_tags, ?_, fun _ _ => rfl, fun _ _ => rfl, fun _ => rfl⟩
  intro k v hv
  cases v with
  | obj fs => exact absurd hv (by simp [isScalarJ])
  | arr xs => exact absurd hv (by simp [isScalarJ])
  | null => rfl
  | bool b => rfl
  | num i => rfl
  | dec neg i frac => rfl
  | str s => rfl

/-- C8 witness: the structure theorem at a concrete nested value. -/
theorem C8_xml_structure_witness :
    (dictToXml (.ocons "k1" (.str "v")
        (.ocons "k2" (.arr (.cons (.num 3) .nil)) .onil))).map XNode.tag
      = objKeys (.ocons "k1" (.str "v") (.ocons "k2" (.arr (.cons (.num 3) .nil)) .onil))
    ∧ xmlChild "s" (.str "v") = .elem "s" (some (pyStr (.str "v"))) [] :=
  ⟨C8_xml_structure.1 _, C8_xml_structure.2.2.1 "s" (.str "v") (by rfl)⟩

/-- Modelled from the spec: "flatten the top-level key/value structure
into a single row" — a header line of the mapping's keys and one data row
of the values in their string form. -/
def singleRowFlattening (d : JObj) : String :=
  csvLine (objKeys d) ++ csvLine ((objVals d).map csvCellStr)

/-- A table row of the page data: a list of scalar cells (the page script
builds each cell from `cell.innerText.trim()`, so its cells are strings). -/
def isRowShape : JVal → Bool
  | .arr cells => (jarrToList cells).all isScalarJ
  | _ => false

/-- One table of the page data: a list of rows. -/
def isTableShape : JVal → Bool
  | .arr rows => (jarrToList rows).all isRowShape
  | _ => false

/-- The `tables` value of the page data: a list of tables, each itself a
list of rows of cells, as the page script builds it (one entry per
`table` element, mapped over its `tr` rows — src/main.py lines 188-193). -/
def isTablesShape : JVal → Bool
  | .arr ts => (jarrToList ts).all isTableShape
  | _ => false

/-- Well-formed result for CSV export: if `raw_data` is present it is the
structured-data mapping, and its `tables` member (if present) is a list
of tables of rows of scalar cells — the nesting the page script
produces. -/
def wfResult (d : JObj) : Bool :=
  match objGet "raw_data" d with
  | none => true
  | some (.obj rfs) =>
    (match objGet "tables" rfs with
     | none => true
     | some t => isTablesShape t)
  | some _ => false

/-- The code's branch condition: tabular sub-structure present and its
collected rows nonempty. -/
def hasTabularRows (d : JObj) : Bool :=
  match objGet "raw_data" d with
  | some rd =>
    (match pyContainsKey "tables" rd with
     | .ok true =>
       (match pyIndex "tables" rd with
        | .ok t =>
          (match collectAllRows t with
           | .ok (_ :: _) => true
           | _ => false)
        | .error _ => false)
     | _ => false)
  | none => false

theorem keyMem_objGet_some {k : String} {fs : JObj} (h : keyMem k fs = true) :
    ∃ v, objGet k fs = some v := by
  match fs with
  | .onil => simp [keyMem] at h
  | .ocons k' v' tl =>
    by_cases hk : k = k'
    · exact ⟨v', by rw [objGet, if_pos hk]⟩
    · rw [keyMem, decide_eq_false hk, Bool.false_or] at h
      obtain ⟨v, hv⟩ := keyMem_objGet_some h
      exact ⟨v, by rw [objGet, if_neg hk, hv]⟩

theorem keyMem_objGet_none {k : String} {fs : JObj} (h : keyMem k fs = false) :
    objGet k fs = none := by
  match fs with
  | .onil => rfl
  | .ocons k' v' tl =>
    rw [keyMem, Bool.or_eq_false_iff] at h
    rw [objGet, if_neg (by simpa using h.1), keyMem_objGet_none h.2]

theorem collectGo_ok : ∀ {ts : List JVal}, ts.all isTableShape = true →
    ∃ rows, collectAllRows.go ts = .ok rows ∧ rows.all isRowShape = true := by
  intro ts h
  match ts with
  | [] => exact ⟨[], rfl, rfl⟩
  | t :: ts2 =>
    rw [List.all_cons, Bool.and_eq_true] at h
    obtain ⟨rows2, h2, hsh2⟩ := collectGo_ok h.2
    cases t with
    | arr rws =>
      have h1 := h.1
      rw [isTableShape] at h1
      refine ⟨jarrToList rws ++ rows2, ?_, ?_⟩
      · simp only [collectAllRows.go, extendRows, h2]
      · rw [List.all_append, h1, hsh2]; rfl
    | null => exact absurd h.1 (by simp [isTableShape])
    | bool b => exact absurd h.1 (by simp [isTableShape])
    | num i => exact absurd h.1 (by simp [isTableShape])
    | dec neg i frac => exact absurd h.1 (by simp [isTableShape])
    | str s => exact absurd h.1 (by simp [isTableShape])
    | obj fs => exact absurd h.1 (by simp [isTableShape])

theorem rows_list_of_rowShape : ∀ {rows : List JVal}, rows.all isRowShape = true →
    rows.all isListRow = true := by
  intro rows h
  match rows with
  | [] => rfl
  | r :: rs =>
    rw [List.all_cons, Bool.and_eq_true] at h ⊢
    refine ⟨?_, rows_list_of_rowShape h.2⟩
    cases r with
    | arr xs => rfl
    | null => exact absurd h.1 (by simp [isRowShape])
    | bool b => exact absurd h.1 (by simp [isRowShape])
    | num i => exact absurd h.1 (by simp [isRowShape])
    | dec neg i frac => exact absurd h.1 (by simp [isRowShape])
    | str s => exact absurd h.1 (by simp [isRowShape])
    | obj fs => exact absurd h.1 (by simp [isRowShape])

theorem dfRowsCsv_table {rows : List JVal} (h : rows.all isListRow = true) :
    dfRowsCsv rows = dfTableCsv (rows.map rowCells) := by
  rw [dfRowsCsv, if_pos h]

/-- C9: CSV rendering of a well-formed result never errors; with no
tabular sub-structure it is the single-row flattening of the top-level
key/value structure (nested values degrading to their string form inside
`csvCellStr`), and with tabular rows present (the tables' concatenated
rows, collected by the `all_rows.extend(table)` loop, being nonempty) it
is the frame flattened from those rows. -/
theorem C9_csv_flattening (d : JObj) (hwf : wfResult d = true) :
    (hasTabularRows d = false →
      DataExporter.to_csv (.obj d) = .ok (singleRowFlattening d))
    ∧ (hasTabularRows d = true →
      ∃ rd t rows, objGet "raw_data" d = some rd
        ∧ pyIndex "tables" rd = .ok t
        ∧ collectAllRows t = .ok rows ∧ rows ≠ []
        ∧ rows.all isListRow = true
        ∧ DataExporter.to_csv (.obj d) = .ok (dfTableCsv (rows.map rowCells)))
    ∧ (∃ s, DataExporter.to_csv (.obj d) = .ok s) := by
  unfold wfResult at hwf
  unfold DataExporter.to_csv hasTabularRows
  simp only []
  rcases hrd : objGet "raw_data" d with _ | rd
  · simp only []
    exact ⟨fun _ => rfl, fun hc => absurd hc (by simp), ⟨_, rfl⟩⟩
  · rw [hrd] at hwf
    cases rd with
    | obj rfs =>
      simp only [pyContainsKey]
      simp only [] at hwf
      by_cases hk : keyMem "tables" rfs = true
      · obtain ⟨t, ht⟩ := keyMem_objGet_some hk
        rw [ht] at hwf
        simp only [] at hwf
        rw [hk]
        simp only [pyIndex, ht]
        cases t with
        | arr ts =>
          rw [isTablesShape] at hwf
          obtain ⟨rows, hrows, hsh⟩ := collectGo_ok hwf
          rw [show collectAllRows (.arr ts) = collectAllRows.go (jarrToList ts) from rfl,
            hrows]
          cases rows with
          | nil =>
            simp only []
            exact ⟨fun _ => rfl, fun hc => absurd hc (by simp), ⟨_, rfl⟩⟩
          | cons r rs =>
            simp only []
            refine ⟨fun hc => absurd hc (by simp), fun _ => ?_, ⟨_, rfl⟩⟩
            refine ⟨.obj rfs, .arr ts, r :: rs, rfl,
              by simp [pyIndex, ht], by
                rw [show collectAllRows (.arr ts) = collectAllRows.go (jarrToList ts) from rfl,
                  hrows],
              by simp, rows_list_of_rowShape hsh, ?_⟩
            rw [dfRowsCsv_table (rows_list_of_rowShape hsh)]
        | null => exact absurd hwf (by simp [isTablesShape])
        | bool b => exact absurd hwf (by simp [isTablesShape])
        | num i => exact absurd hwf (by simp [isTablesShape])
        | dec neg i frac => exact absurd hwf (by simp [isTablesShape])
        | str s => exact absurd hwf (by simp [isTablesShape])
        | obj fs2 => exact absurd hwf (by simp [isTablesShape])
      · rw [Bool.not_eq_true] at hk
        rw [hk]
        simp only []
        exact ⟨fun _ => rfl, fun hc => absurd hc (by simp), ⟨_, rfl⟩⟩
    | null => exact absurd hwf (by simp)
    | bool b => exact absurd hwf (by simp)
    | num i => exact absurd hwf (by simp)
    | dec neg i frac => exact absurd hwf (by simp)
    | str s => exact absurd hwf (by simp)
    | arr xs => exact absurd hwf (by simp)

/-- A flat extraction result with no tabular sub-structure. -/
def c9Flat : JObj := .ocons "title" (.str "Example") (.ocons "count" (.num 3) .onil)

/-- An extraction result whose `raw_data.tables` carries one table of two
two-cell rows — the nesting the page script produces. -/
def c9Tabular : JObj :=
  .ocons "ai_extracted_data" (.str "x")
    (.ocons "raw_data"
      (.obj (.ocons "tables"
        (.arr (.cons
          (.arr (.cons (.arr (.cons (.str "a") (.cons (.str "b") .nil)))
            (.cons (.arr (.cons (.str "c") (.cons (.str "d") .nil))) .nil)))
          .nil))
        .onil))
      .onil)

/-- C9 witness: a flat result exports as the single-row flattening, and a
result carrying one two-row table exports as the frame flattened from that
table's rows — concretely the artifact `0,1` / `a,b` / `c,d`. -/
theorem C9_csv_flattening_witness :
    (wfResult c9Flat = true ∧ hasTabularRows c9Flat = false
      ∧ DataExporter.to_csv (.obj c9Flat) = .ok (singleRowFlattening c9Flat))
    ∧ (wfResult c9Tabular = true ∧ hasTabularRows c9Tabular = true
      ∧ (∃ rd t rows, objGet "raw_data" c9Tabular = some rd
          ∧ pyIndex "tables" rd = .ok t
          ∧ collectAllRows t = .ok rows ∧ rows ≠ []
          ∧ rows.all isListRow = true
          ∧ DataExporter.to_csv (.obj c9Tabular)
              = .ok (dfTableCsv (rows.map rowCells)))
      ∧ DataExporter.to_csv (.obj c9Tabular) = .ok "0,1\na,b\nc,d\n") :=
  ⟨⟨by rfl, by rfl, (C9_csv_flattening c9Flat (by rfl)).1 (by rfl)⟩,
   ⟨by rfl, by rfl, (C9_csv_flattening c9Tabular (by rfl)).2.1 (by rfl), by rfl⟩⟩

/-- C10: the extraction stage is URL-independent and page-independent:
for any two target URLs with the same instruction and options the result
is identical, and the result depends only on the product/price and email
keyword tests of the lowered instruction together with the
structured-extraction option — no page content enters at all. -/
theorem C10_url_independent :
    (∀ (u1 u2 instr : String) (opts : ExtractionOptions),
      langextract_scrape u1 instr opts = langextract_scrape u2 instr opts)
    ∧ (∀ (u1 u2 i1 i2 : String) (o1 o2 : ExtractionOptions),
      (pyIn "product" (String.mk (lowerChars i1.data))
          && pyIn "price" (String.mk (lowerChars i1.data)))
        = (pyIn "product" (String.mk (lowerChars i2.data))
          && pyIn "price" (String.mk (lowerChars i2.data))) →
      pyIn "email" (String.mk (lowerChars i1.data))
        = pyIn "email" (String.mk (lowerChars i2.data)) →
      o1.structured_extraction = o2.structured_extraction →
      langextract_scrape u1 i1 o1 = langextract_scrape u2 i2 o2) := by
  constructor
  · intro u1 u2 instr opts
    rfl
  · intro u1 u2 i1 i2 o1 o2 h1 h2 h3
    unfold langextract_scrape
    simp only []
    rw [h1, h2, h3]

/-- C10 witness: two different URLs and two instructions with the same
keyword classification produce the identical result. -/
theorem C10_url_independent_witness :
    langextract_scrape "https://a.example" "Get the Product Price list"
        { structured_extraction := true, schema_enforcement := "loose", format := "json" }
      = langextract_scrape "https://b.example" "price of each product"
        { structured_extraction := true, schema_enforcement := "strict", format := "csv" } :=
  C10_url_independent.2 "https://a.example" "https://b.example"
    "Get the Product Price list" "price of each product"
    { structured_extraction := true, schema_enforcement := "loose", format := "json" }
    { structured_extraction := true, schema_enforcement := "strict", format := "csv" }
    (by rfl) (by rfl) rfl
